import Mathlib

/-!
Verification development for the soccer event-recognition engine
(`src/event_recognition.py`; the surrounding files are I/O, reporting and
tuning harness and carry no algorithmic content that the claims refer to).

Embedding conventions, used consistently below:

* Coordinates are exact rationals: IEEE double arithmetic of the source is
  idealised as exact real (here: rational) arithmetic.
* Every distance and ball speed is represented by its *square*.  All
  comparisons in the source are between nonnegative quantities
  (`np.linalg.norm` results and positive thresholds), so squaring both sides
  is an order-preserving, faithful translation that keeps everything in ℚ.
* The trigonometric test `abs(atan2(det, dot)) > pi/8` of
  `is_ball_direction_changed` is translated into the equivalent algebraic
  condition using `tan (π/8) = √2 - 1` (see `angle_gt_pi_div_8`).
* A frame is the raw record of the source: a list of 46 rationals, players
  at offsets `2*p, 2*p+1`, ball at offsets 44, 45 (`frame[-2:]` under the
  documented length-46 precondition).  Out-of-range reads default to 0; the
  source would raise there, and no claim depends on malformed frames.
* The Python dict `self.events` (keys `str(frame)`, insertion ordered,
  assignment = upsert) is modelled by an insertion-ordered association list
  with integer keys (`str` is injective on integers), see `dict_insert`.
* `self.pwb`, `self.prev_pwb` and `self.event_frame` start as `None`; the
  source reads them (e.g. `int(self.prev_pwb)`) only after they have been
  set, and would raise otherwise.  Such reads are modelled with `Option.getD`
  and a default that is unreachable from the initial state (the invariant
  proofs below establish the corresponding reachability facts).
* The `while` loops of the source are modelled by fuel recursion; every loop
  of the source advances `current_frame` by one per iteration and is bounded
  by `len(self.episode)`, so the fuel passed at each call site
  (`ep.length`, resp. `ep.length + 1` for the outer loop) provably suffices
  (see the `main_loop` exhaustion lemmas).
* `trace` is a ghost field (absent from the source): it records every event
  returned by `detect_pass_shot` to the main loop, transient ones included,
  paired with the value of `prev_pwb` at that moment.  It is written exactly
  where the source's `find_events` receives a non-`None` event and is read
  by no part of the model, so it does not influence the computation.
-/

namespace SoccerER

abbrev Pt : Type := ℚ × ℚ
abbrev Frame : Type := List ℚ
abbrev Episode : Type := List Frame

/-- Squared euclidean distance between two points (see the squaring
convention in the file header). -/
def distSq (a b : Pt) : ℚ := (a.1 - b.1) ^ 2 + (a.2 - b.2) ^ 2

/-! ### Constants of `event_recognition.py` -/

/-- Minimal distance between the ball and the ball-possessing player (m). -/
def VicinityThreshold : ℚ := 1
/-- Time required for a player to be considered a ball receiver (frames). -/
def GracePeriodPlayer : ℕ := 5
def GracePeriodBall : ℕ := 1
/-- Minimal ball travel distance of an unsuccessful pass (m). -/
def MinFailedPassLength : ℚ := 3 / 2
/-- Minimal change in ball speed considered significant. -/
def MinSpeedChangeFactor : ℚ := 3 / 2
/-- Minimal distance from a goalpost for a kick to be considered a pass (m);
declared in the source, not used by the recognition logic. -/
def GoalpostDistance : ℚ := 5
def TrajectoryBack : ℕ := 3
def TrajectoryForward : ℕ := 6
def GoalLength : ℚ := 732 / 100
/-- Borders of the goal area: `GoalLength / 2 + 5.5`. -/
def GoalAreaY : ℚ := GoalLength / 2 + 55 / 10
def GoalAreaX : ℚ := 47
def PitchHalfLength : ℚ := 105 / 2
def PitchHalfWidth : ℚ := 35

/-! ### Geometry module -/

/-- Function `is_same_team(p1, p2)` of the source:
`(p1 < 10 and p2 < 10) or (p1 > 10 and p2 > 10)`. -/
def is_same_team (p1 p2 : ℕ) : Bool :=
  (decide (p1 < 10) && decide (p2 < 10)) || (decide (p1 > 10) && decide (p2 > 10))

/-- Function `is_in_goal_area`: `abs(x) > GoalAreaX and abs(y) < GoalAreaY`. -/
def is_in_goal_area (object_xy : Pt) : Bool :=
  decide (|object_xy.1| > GoalAreaX) && decide (|object_xy.2| < GoalAreaY)

/-! ### Frame accessors -/

/-- Function `get_ball_coordinates`: `self.episode[frame][-2:]` (offsets 44, 45 of a
length-46 frame). -/
def get_ball_coordinates (ep : Episode) (frame : ℕ) : Pt :=
  ((ep.getD frame []).getD 44 0, (ep.getD frame []).getD 45 0)

/-- Function `get_player_coordinates`: slice at `player * 2`. -/
def get_player_coordinates (ep : Episode) (player frame : ℕ) : Pt :=
  ((ep.getD frame []).getD (2 * player) 0, (ep.getD frame []).getD (2 * player + 1) 0)

/-- Function `get_distances_to_ball`: squared distance to `ball_xy` for each of the 22
players of the frame.  The source's optional `ball_xy=None` default (use the
frame's own ball position) is written out explicitly at the call sites. -/
def get_distances_to_ball (ep : Episode) (frame : ℕ) (ball_xy : Pt) : List ℚ :=
  (List.range 22).map fun p => distSq (get_player_coordinates ep p frame) ball_xy

/-- Index of the first minimal entry of the list, 0 on `[]`: the behaviour of
`np.argmin` (first occurrence of the minimum). -/
def np_argmin : List ℚ → ℕ
  | [] => 0
  | [_] => 0
  | v :: w :: vs =>
    let j := np_argmin (w :: vs)
    if (w :: vs).getD j 0 < v then j + 1 else 0

/-! ### Possession tracker -/

/-- Function `get_closest_player` (its `in_vicinity_only` parameter is `True` at every
call site of the source, so only that form is modelled). -/
def get_closest_player (ep : Episode) (frame : ℕ) : Option ℕ :=
  let ball_dist := get_distances_to_ball ep frame (get_ball_coordinates ep frame)
  let closest_idx := np_argmin ball_dist
  if ball_dist.getD closest_idx 0 > VicinityThreshold ^ 2 then none else some closest_idx

/-- Function `get_closest_teammate`: the possessor's entry is overridden with
`300.0` (squared: `300 ^ 2`) before the arg-min over the possessor's side
(`[:11]` when `prev_pwb < 11`, else `[11:]` shifted by 11). -/
def get_closest_teammate (ep : Episode) (frame : ℕ) (ball_xy : Pt) (prev_pwb : ℕ) : ℕ :=
  let ball_dist := (get_distances_to_ball ep frame ball_xy).set prev_pwb (300 ^ 2)
  if prev_pwb < 11 then np_argmin (ball_dist.take 11)
  else np_argmin (ball_dist.drop 11) + 11

/-- Function `is_ball_faraway`: distance from the player to the ball of the frame
exceeds `VicinityThreshold`. -/
def is_ball_faraway (ep : Episode) (player frame : ℕ) : Bool :=
  decide (distSq (get_player_coordinates ep player frame) (get_ball_coordinates ep frame)
            > VicinityThreshold ^ 2)

/-! ### Trajectory analyzer -/

/-- Function `calculate_ball_speed`, squared: `(norm / (frame_b - frame_a)) ^ 2`.
The source's only division by zero (`frame_b = frame_a`, reachable solely
through the unreachable `current_frame = 0` window) yields `0` in ℚ. -/
def calculate_ball_speed_sq (ep : Episode) (frame_a frame_b : ℕ) : ℚ :=
  distSq (get_ball_coordinates ep frame_a) (get_ball_coordinates ep frame_b)
    / ((frame_b : ℚ) - (frame_a : ℚ)) ^ 2

/-- Function `is_ball_speed_changed` over squared speeds: `min < 0.001` becomes
`min² < 0.001²` and `max / min > MinSpeedChangeFactor` becomes
`max² > MinSpeedChangeFactor² * min²` (all speeds are nonnegative). -/
def is_ball_speed_changed (ep : Episode) (current_frame prev_frame next_frame : ℕ) : Bool :=
  let prev_speed := calculate_ball_speed_sq ep prev_frame current_frame
  let next_speed := calculate_ball_speed_sq ep current_frame next_frame
  let max_speed := max prev_speed next_speed
  let min_speed := min next_speed prev_speed
  if min_speed < (1 / 1000) ^ 2 then true
  else decide (max_speed > MinSpeedChangeFactor ^ 2 * min_speed)

/-- Exact test for `abs(atan2(d, c)) > pi/8`: for `c > 0` this is
`|d| > c * tan (π/8)` with `tan (π/8) = √2 - 1`, i.e. `(|d| + c)² > 2 c²`;
for `c < 0` the angle is at least `π/2`; for `c = 0` it is `±π/2` unless
`d = 0` (where `atan2 0 0 = 0`). -/
def angle_gt_pi_div_8 (d c : ℚ) : Bool :=
  if c < 0 then true
  else if c = 0 then decide (d ≠ 0)
  else decide (2 * c ^ 2 < (|d| + c) ^ 2)

/-- Function `is_ball_direction_changed`: angle between the two backward direction
vectors, via `atan2(det, dot)`. -/
def is_ball_direction_changed (ep : Episode) (current_frame prev_frame next_frame : ℕ) : Bool :=
  let ball_prev := get_ball_coordinates ep prev_frame
  let ball_curr := get_ball_coordinates ep current_frame
  let ball_next := get_ball_coordinates ep next_frame
  let pd : Pt := (ball_prev.1 - ball_curr.1, ball_prev.2 - ball_curr.2)
  let nd : Pt := (ball_curr.1 - ball_next.1, ball_curr.2 - ball_next.2)
  angle_gt_pi_div_8 (pd.1 * nd.2 - pd.2 * nd.1) (pd.1 * nd.1 + pd.2 * nd.2)

/-- Step list of `get_ball_trajectory`: up to `n` projected points, each
`curr - prev_dir / denom`, stopping after a point that leaves the pitch. -/
def trajectory_steps : ℕ → Pt → Pt → ℚ → List Pt
  | 0, _, _, _ => []
  | n + 1, ball_curr, prev_dir, denom =>
    let next_xy : Pt := (ball_curr.1 - prev_dir.1 / denom, ball_curr.2 - prev_dir.2 / denom)
    next_xy ::
      (if decide (|next_xy.1| > PitchHalfLength) || decide (|next_xy.2| > PitchHalfWidth)
       then [] else trajectory_steps n next_xy prev_dir denom)

/-- Function `get_ball_trajectory` (`prev_frame = max(0, frame - TrajectoryBack)` is
ℕ-truncated subtraction). -/
def get_ball_trajectory (ep : Episode) (frame : ℕ) : List Pt :=
  let prev_frame := frame - TrajectoryBack
  let ball_curr := get_ball_coordinates ep frame
  let ball_prev := get_ball_coordinates ep prev_frame
  let prev_dir : Pt := (ball_prev.1 - ball_curr.1, ball_prev.2 - ball_curr.2)
  trajectory_steps TrajectoryForward ball_curr prev_dir ((frame : ℚ) - (prev_frame : ℚ))

/-! ### Events and the recognizer state -/

inductive EventKind
  | pass
  | failed_pass
  | shot
  | tackle
  | faraway
deriving DecidableEq

/-- One event dict of the source.  `player`/`target` are `none` when the
corresponding key is absent (`tackle` has neither, `shot` has no target).
The source pops `frame` into the map key when storing; the field is kept
inside the record as well (it always equals the key, which is harmless). -/
structure Event where
  frame : ℤ
  kind : EventKind
  player : Option ℕ := none
  target : Option ℕ := none
deriving DecidableEq

/-- The mutable fields of `EventRecognizer` (the episode itself is passed
explicitly; `show_info` / `show_debug` only control printing).  `trace` is
the ghost field described in the file header. -/
structure RecState where
  current_frame : ℕ
  pwb : Option ℕ
  prev_pwb : Option ℕ
  event_frame : Option ℤ
  events : List (ℤ × Event)
  trace : List (Option ℕ × Event)
deriving DecidableEq

/-- Function `EventRecognizer.__init__`. -/
def initState : RecState :=
  { current_frame := 0, pwb := none, prev_pwb := none, event_frame := none,
    events := [], trace := [] }

/-- Function `get_event`: the common event record builder.  `int(self.event_frame)` and
`int(self.prev_pwb)` would raise on `None`; both are set whenever the source
reaches this point (modelled by `Option.getD` resp. by keeping the option). -/
def get_event (s : RecState) (event_type : EventKind) (target : Option ℕ) : Event :=
  { frame := s.event_frame.getD 0, kind := event_type, player := s.prev_pwb, target := target }

/-- Function `is_possession_changed` (note `prev_frame = max(current_frame - 1, 0)` is
ℕ-truncated subtraction, and the final `for` loop with early `return False`
is the conjunction over the window `[current_frame, furthest]`). -/
def is_possession_changed (ep : Episode) (s : RecState) (new_pwb : ℕ) : Bool :=
  if s.current_frame = ep.length - 1 then true
  else
    let prev_frame := s.current_frame - GracePeriodBall
    let next_frame := min (s.current_frame + GracePeriodBall) (ep.length - 1)
    if is_ball_speed_changed ep s.current_frame prev_frame next_frame
        || is_ball_direction_changed ep s.current_frame prev_frame next_frame then true
    else
      let furthest := min (s.current_frame + GracePeriodPlayer) (ep.length - 1)
      (List.range (furthest + 1 - s.current_frame)).all fun i =>
        !(is_ball_faraway ep new_pwb (s.current_frame + i))

/-- Function `verify_failed_pass`: `tackle` below `MinFailedPassLength`, otherwise
`failed_pass` with the closest-teammate target.  `self.prev_pwb` and
`self.event_frame` are set at every reachable call (see the invariants). -/
def verify_failed_pass (ep : Episode) (s : RecState) (ball_xy : Pt) : Event :=
  let pwb_xy_prev :=
    get_player_coordinates ep (s.prev_pwb.getD 0) (s.event_frame.getD 0).toNat
  if distSq pwb_xy_prev ball_xy < MinFailedPassLength ^ 2 then
    { frame := (s.current_frame : ℤ), kind := .tackle }
  else
    get_event s .failed_pass
      (some (get_closest_teammate ep s.current_frame ball_xy (s.prev_pwb.getD 0)))

/-- Function `verify_shot`: a goal-area ball whose extrapolated trajectory crosses the
goal line inside `GoalAreaY` (by a non-goalkeeper) is a shot, otherwise fall
through to `verify_failed_pass`.  The `for`/`return` of the source is an
existential over the trajectory (the returned event does not depend on the
found point). -/
def verify_shot (ep : Episode) (s : RecState) (ball_xy : Pt) : Event :=
  if is_in_goal_area ball_xy &&
      (get_ball_trajectory ep s.current_frame).any (fun next_ball_xy =>
        decide (|next_ball_xy.1| ≥ PitchHalfLength) && decide (|next_ball_xy.2| < GoalAreaY)
          && !(s.prev_pwb == some 0 || s.prev_pwb == some 11)) then
    get_event s .shot none
  else
    verify_failed_pass ep s ball_xy

/-- Function `detect_pass_shot`.  The returned state records the mutation of
`self.pwb`; all other fields are untouched by the source method.
`new_pwb == self.prev_pwb` compares an `int` with an optional (`None == n`
is `False` in Python), hence the `some new_pwb = s.prev_pwb` form; the
`is_same_team(self.prev_pwb, ...)` call would raise on `None` (unreachable,
modelled with `getD`). -/
def detect_pass_shot (ep : Episode) (s : RecState) : RecState × Option Event :=
  let ball_xy := get_ball_coordinates ep s.current_frame
  if |ball_xy.2| > PitchHalfWidth then
    let s1 := { s with pwb := none }
    (s1, some (verify_failed_pass ep s1 ball_xy))
  else if |ball_xy.1| > PitchHalfLength then
    let s1 := { s with pwb := none }
    if |ball_xy.2| < GoalAreaY ∧ ¬(s1.prev_pwb = some 0 ∨ s1.prev_pwb = some 11) then
      (s1, some (get_event s1 .shot none))
    else
      (s1, some (verify_failed_pass ep s1 ball_xy))
  else
    match get_closest_player ep s.current_frame with
    | none => (s, none)
    | some new_pwb =>
      if some new_pwb = s.prev_pwb then
        let s1 := { s with pwb := some new_pwb }
        (s1, some { frame := (s1.current_frame : ℤ), kind := .faraway, player := some new_pwb })
      else if is_possession_changed ep s new_pwb then
        let s1 := { s with pwb := some new_pwb }
        if !(is_same_team (s1.prev_pwb.getD 0) new_pwb) then
          (s1, some (verify_shot ep s1 ball_xy))
        else
          (s1, some (get_event s1 .pass (some new_pwb)))
      else (s, none)

/-! ### The loops of `find_events` -/

/-- The `while` loop of `find_possession_frame` (`current_frame` is advanced
before the `break` test, exactly as in the source). -/
def find_possession_loop (ep : Episode) : ℕ → RecState → RecState
  | 0, s => s
  | fuel + 1, s =>
    if s.current_frame < ep.length then
      match get_closest_player ep s.current_frame with
      | some pwb_idx => { s with current_frame := s.current_frame + 1, pwb := some pwb_idx }
      | none => find_possession_loop ep fuel { s with current_frame := s.current_frame + 1 }
    else s

def find_possession_frame (ep : Episode) (s : RecState) : RecState :=
  find_possession_loop ep ep.length s

/-- The `while` loop of `find_ball_faraway`: on the break the possessor is
remembered and `event_frame := current_frame - 1` (an `int` in the source,
hence ℤ).  `self.pwb` is `None` here only when the loop body never runs. -/
def find_faraway_loop (ep : Episode) : ℕ → RecState → RecState
  | 0, s => s
  | fuel + 1, s =>
    if s.current_frame < ep.length then
      if is_ball_faraway ep (s.pwb.getD 0) s.current_frame then
        { s with prev_pwb := s.pwb, event_frame := some ((s.current_frame : ℤ) - 1) }
      else find_faraway_loop ep fuel { s with current_frame := s.current_frame + 1 }
    else s

def find_ball_faraway (ep : Episode) (s : RecState) : RecState :=
  find_faraway_loop ep ep.length (if s.pwb = none then find_possession_frame ep s else s)

/-- Python dict assignment `self.events[str(k)] = v`: replace in place when
the key is present, append otherwise. -/
def dict_insert (m : List (ℤ × Event)) (k : ℤ) (v : Event) : List (ℤ × Event) :=
  if m.any (fun pr => pr.1 == k) then m.map (fun pr => if pr.1 == k then (k, v) else pr)
  else m ++ [(k, v)]

/-- The inner `while` loop of `find_events`: detect, advance the cursor, and
on any event break out (storing it unless it is `faraway` or `tackle`).
Every event handed back, transient or not, is also pushed onto the ghost
`trace` together with the current `prev_pwb`. -/
def inner_loop (ep : Episode) : ℕ → RecState → RecState
  | 0, s => s
  | fuel + 1, s =>
    if s.current_frame < ep.length then
      let s1 := (detect_pass_shot ep s).1
      let s2 := { s1 with current_frame := s1.current_frame + 1 }
      match (detect_pass_shot ep s).2 with
      | none => inner_loop ep fuel s2
      | some ev =>
        let s3 := { s2 with trace := s2.trace ++ [(s2.prev_pwb, ev)] }
        if ev.kind = .faraway ∨ ev.kind = .tackle then s3
        else { s3 with events := dict_insert s3.events ev.frame ev }
    else s

/-- The outer `while` loop of `find_events`. -/
def main_loop (ep : Episode) : ℕ → RecState → RecState
  | 0, s => s
  | fuel + 1, s =>
    if s.current_frame < ep.length then
      main_loop ep fuel (inner_loop ep ep.length (find_ball_faraway ep s))
    else s

/-- The method `find_events` run on an explicit recognizer state: clear
`self.events`, run the main loop, return the (state, event map) pair. -/
def find_events_run (ep : Episode) (s : RecState) : RecState × List (ℤ × Event) :=
  let s1 := main_loop ep (ep.length + 1) { s with events := [] }
  (s1, s1.events)

/-- Function `EventRecognizer(episode).find_events()`: a fresh recognizer run once. -/
def find_events (ep : Episode) : List (ℤ × Event) :=
  (find_events_run ep initState).2

/-! ### Spec-side definitions (used for the refinement statements only)

These are written from the specification's words, to be compared with the
definitions above, which are translated from the source. -/

/-- Spec: the ball's speed changed by more than a `1.5×` ratio across the
`±1`-frame window straddling the candidate frame, a near-zero prior or next
speed counting as changed.  (Speeds squared, one frame apart, so a squared
speed is a squared distance.) -/
def spec_speed_changed (ep : Episode) (cf : ℕ) : Bool :=
  let prior := distSq (get_ball_coordinates ep (cf - 1)) (get_ball_coordinates ep cf)
  let next := distSq (get_ball_coordinates ep cf) (get_ball_coordinates ep (cf + 1))
  decide (prior < (1 / 1000) ^ 2) || decide (next < (1 / 1000) ^ 2)
    || decide (max prior next > MinSpeedChangeFactor ^ 2 * min prior next)

/-- Spec: the ball's direction changed by more than `π/8` radians across the
`±1` window: the angle between the forward displacement into the candidate
frame and the forward displacement out of it exceeds `π/8`. -/
def spec_direction_changed (ep : Episode) (cf : ℕ) : Bool :=
  let into : Pt :=
    ((get_ball_coordinates ep cf).1 - (get_ball_coordinates ep (cf - 1)).1,
     (get_ball_coordinates ep cf).2 - (get_ball_coordinates ep (cf - 1)).2)
  let outof : Pt :=
    ((get_ball_coordinates ep (cf + 1)).1 - (get_ball_coordinates ep cf).1,
     (get_ball_coordinates ep (cf + 1)).2 - (get_ball_coordinates ep cf).2)
  angle_gt_pi_div_8 (into.1 * outof.2 - into.2 * outof.1) (into.1 * outof.1 + into.2 * outof.2)

/-- Spec: the candidate possessor remains within the vicinity threshold of
the ball on every frame of the forward window
`[cf, min (cf + GracePeriodPlayer) (ep.length - 1)]` (truncated at the
episode end). -/
def spec_sustained_control (ep : Episode) (cf new_pwb : ℕ) : Bool :=
  (List.range' cf (min (cf + GracePeriodPlayer) (ep.length - 1) + 1 - cf)).all fun f =>
    decide (distSq (get_player_coordinates ep new_pwb f) (get_ball_coordinates ep f)
              ≤ VicinityThreshold ^ 2)

/-! ### Concrete episodes used by counterexamples and witnesses -/

/-- Build a frame from 22 player positions and the ball position. -/
def mkFrame (ps : List Pt) (ball : Pt) : Frame :=
  (ps.map fun p => [p.1, p.2]).flatten ++ [ball.1, ball.2]

/-- Player 5 on the ball, everyone else 400 m up-field (admissible input: a
frame is just 46 numbers; nothing in the source bounds coordinates). -/
def playersC8 : List Pt := (List.range 22).map fun i => if i = 5 then (0, 0) else (0, 400)

/-- Two frames: player 5 possesses the ball at the origin, then the ball is
out over the sideline at `(0, 36)` while every other player is ≥ 300 m from
the exit point. -/
def epC8 : Episode := [mkFrame playersC8 (0, 0), mkFrame playersC8 (0, 36)]

/-- The recognizer state after the faraway break of `epC8` (also reachable
by running the machine; used to exercise `verify_failed_pass` directly). -/
def stC3 : RecState :=
  { current_frame := 1, pwb := none, prev_pwb := some 5, event_frame := some 0,
    events := [], trace := [] }

/-- Like `playersC8`, but with every player within ordinary pitch range. -/
def playersW : List Pt :=
  (List.range 22).map fun i =>
    if i = 5 then ((0 : ℚ), 0) else if i < 11 then (20, 0) else (-20, 0)

/-- A well-behaved two-frame episode: player 5 possesses, then the ball
crosses the sideline 36 m away; all players stay within 300 m of the ball. -/
def epW : Episode := [mkFrame playersW (0, 0), mkFrame playersW (0, 36)]

/-- The single event stored by `find_events` on `epW`. -/
def evW : Event := { frame := 0, kind := .failed_pass, player := some 5, target := some 0 }

/-- State used by the possession-change witness: candidate frame 1 (the last
frame of `epW`). -/
def stC2 : RecState :=
  { current_frame := 1, pwb := some 5, prev_pwb := some 5, event_frame := some 0,
    events := [], trace := [] }

/-- Single frame with the ball behind the goal line, in front of the goal. -/
def epC1 : Episode := [mkFrame playersW (53, 0)]

/-- State used by the goal-line witness: prior possessor is player 5. -/
def stC1 : RecState :=
  { current_frame := 0, pwb := some 5, prev_pwb := some 5, event_frame := some (-1),
    events := [], trace := [] }

/-- All 22 players of every frame lie strictly within 300 m of that frame's
ball position: under this hypothesis the 300 m sentinel of
`get_closest_teammate` really excludes the possessor. -/
def allWithin300 (ep : Episode) : Bool :=
  ep.all fun f => (List.range 22).all fun p =>
    decide (distSq (f.getD (2 * p) 0, f.getD (2 * p + 1) 0) (f.getD 44 0, f.getD 45 0)
              < 300 ^ 2)

/-- The run invariant of the recognizer, preserved by every loop of
`find_events`:  stored keys strictly increase and sit at least two frames
behind the cursor; stored kinds are `pass`/`failed_pass`/`shot`; every
ghost-trace entry was emitted with a set `prev_pwb`; both possessor fields
hold player indices below 22; and every stored `pass` has
`target ≠ player`, as has every stored `failed_pass` conditionally on
`allWithin300`. -/
def Inv (ep : Episode) (s : RecState) : Prop :=
  List.Chain' (fun a b => a < b) (s.events.map Prod.fst)
  ∧ (∀ k ∈ s.events.map Prod.fst, k + 2 ≤ (s.current_frame : ℤ))
  ∧ (∀ pr ∈ s.events,
      pr.2.kind = .pass ∨ pr.2.kind = .failed_pass ∨ pr.2.kind = .shot)
  ∧ (∀ pr ∈ s.trace, pr.1 ≠ none)
  ∧ (∀ n, s.pwb = some n → n < 22)
  ∧ (∀ n, s.prev_pwb = some n → n < 22)
  ∧ (∀ pr ∈ s.events,
      (pr.2.kind = .pass → pr.2.target ≠ pr.2.player)
      ∧ (pr.2.kind = .failed_pass → allWithin300 ep = true → pr.2.target ≠ pr.2.player))

/-! ## Theorems -/

set_option maxRecDepth 100000

/-- Claim C7: for player indices `a, b ≤ 21`, `is_same_team a b` holds iff
both indices lie in `[0, 9]` or both lie in `[11, 21]`; consequently it is
symmetric on those ranges, and index 10 is same-team with no index
(including itself, taking `b = 10`). -/
theorem claim_C7_is_same_team (a b : ℕ) (ha : a ≤ 21) (hb : b ≤ 21) :
    (is_same_team a b = true ↔ ((a ≤ 9 ∧ b ≤ 9) ∨ (11 ≤ a ∧ 11 ≤ b)))
    ∧ is_same_team a b = is_same_team b a
    ∧ is_same_team 10 b = false ∧ is_same_team a 10 = false := by
  unfold is_same_team
  refine ⟨?_, ?_, ?_, ?_⟩
  · simp only [Bool.or_eq_true, Bool.and_eq_true, decide_eq_true_eq]
    omega
  · by_cases h1 : a < 10 <;> by_cases h2 : b < 10 <;>
      by_cases h3 : 10 < a <;> by_cases h4 : 10 < b <;>
      simp [h1, h2, h3, h4]
  · simp
  · simp

/-- Witness for C7 at the concrete indices `a = 3`, `b = 7`. -/
theorem claim_C7_witness :
    (is_same_team 3 7 = true ↔ ((3 ≤ 9 ∧ 7 ≤ 9) ∨ (11 ≤ 3 ∧ 11 ≤ 7)))
    ∧ is_same_team 3 7 = is_same_team 7 3
    ∧ is_same_team 10 7 = false ∧ is_same_team 3 10 = false :=
  claim_C7_is_same_team 3 7 (by decide) (by decide)

/-- Claim C6: the classification is a deterministic function of the episode
and the (fixed) configuration constants.  The embedding is pure — the run
reads nothing but the episode and the constants — so a re-run of a freshly
constructed recognizer on the same episode is the very same computation and
the equality is definitional. -/
theorem claim_C6_deterministic (ep : Episode) :
    find_events ep = (find_events_run ep initState).2 := rfl

/-- Claim C1: when the ball's longitudinal coordinate exceeds the pitch
half-length, `detect_pass_shot` clears the possessor and emits a `shot`
exactly when the crossing point's lateral coordinate is within the goal-area
width `GoalAreaY` and the prior possessor is not a goalkeeper (0 or 11);
otherwise the transition goes to the failed-pass/tackle check (whose result
is never a `shot`).  (When the sideline test fires first, `|y| > 35 >
GoalAreaY` makes the two branches agree.) -/
theorem claim_C1_goal_line (ep : Episode) (s : RecState) (p : ℕ)
    (hp : s.prev_pwb = some p)
    (hx : |(get_ball_coordinates ep s.current_frame).1| > PitchHalfLength) :
    detect_pass_shot ep s =
      ({ s with pwb := none },
        some
          (if |(get_ball_coordinates ep s.current_frame).2| < GoalAreaY ∧ ¬(p = 0 ∨ p = 11) then
            get_event { s with pwb := none } .shot none
          else
            verify_failed_pass ep { s with pwb := none }
              (get_ball_coordinates ep s.current_frame)))
    ∧ (verify_failed_pass ep { s with pwb := none }
        (get_ball_coordinates ep s.current_frame)).kind ≠ EventKind.shot := by
  constructor
  · simp only [detect_pass_shot, hp, Option.some.injEq]
    by_cases hside : |(get_ball_coordinates ep s.current_frame).2| > PitchHalfWidth
    · rw [if_pos hside]
      have hy : ¬ |(get_ball_coordinates ep s.current_frame).2| < GoalAreaY := by
        have hlt : GoalAreaY < PitchHalfWidth := by
          norm_num [GoalAreaY, GoalLength, PitchHalfWidth]
        push_neg
        linarith
      rw [if_neg fun hc => hy hc.1]
    · rw [if_neg hside, if_pos hx]
      by_cases hcond : |(get_ball_coordinates ep s.current_frame).2| < GoalAreaY ∧ ¬(p = 0 ∨ p = 11)
      · rw [if_pos hcond, if_pos hcond]
      · rw [if_neg hcond, if_neg hcond]
  · simp only [verify_failed_pass, get_event]
    split <;> simp

/-- Witness for C1: `epC1` puts the ball at `(53, 0)` with prior possessor 5;
the theorem applies and the branch taken is the `shot` branch. -/
theorem claim_C1_witness :
    detect_pass_shot epC1 stC1 =
      ({ stC1 with pwb := none },
        some
          (if |(get_ball_coordinates epC1 stC1.current_frame).2| < GoalAreaY
              ∧ ¬(5 = 0 ∨ 5 = 11) then
            get_event { stC1 with pwb := none } .shot none
          else
            verify_failed_pass epC1 { stC1 with pwb := none }
              (get_ball_coordinates epC1 stC1.current_frame)))
    ∧ (verify_failed_pass epC1 { stC1 with pwb := none }
        (get_ball_coordinates epC1 stC1.current_frame)).kind ≠ EventKind.shot :=
  claim_C1_goal_line epC1 stC1 5 rfl (of_decide_eq_true (by with_unfolding_all rfl))

/-- The code's speed test over the window `(cf - 1, cf, cf + 1)` agrees with
the spec-side formulation (both frame gaps are 1, so the squared speeds are
the squared displacements). -/
theorem is_ball_speed_changed_eq_spec (ep : Episode) (cf : ℕ) (h1 : 1 ≤ cf) :
    is_ball_speed_changed ep cf (cf - 1) (cf + 1) = spec_speed_changed ep cf := by
  have e1 : ((cf : ℚ) - ((cf - 1 : ℕ) : ℚ)) ^ 2 = 1 := by
    rw [Nat.cast_sub h1]
    push_cast
    ring
  have e2 : (((cf + 1 : ℕ) : ℚ) - (cf : ℚ)) ^ 2 = 1 := by
    push_cast
    ring
  simp only [is_ball_speed_changed, spec_speed_changed, calculate_ball_speed_sq, e1, e2, div_one]
  rw [min_comm (distSq (get_ball_coordinates ep cf) (get_ball_coordinates ep (cf + 1)))
    (distSq (get_ball_coordinates ep (cf - 1)) (get_ball_coordinates ep cf))]
  by_cases hmin :
      min (distSq (get_ball_coordinates ep (cf - 1)) (get_ball_coordinates ep cf))
        (distSq (get_ball_coordinates ep cf) (get_ball_coordinates ep (cf + 1)))
        < (1 / 1000 : ℚ) ^ 2
  · rw [if_pos hmin]
    rcases min_lt_iff.1 hmin with h | h <;>
      rw [decide_eq_true h] <;>
        simp only [Bool.true_or, Bool.or_true]
  · rw [if_neg hmin]
    rw [min_lt_iff, not_or] at hmin
    rw [decide_eq_false hmin.1, decide_eq_false hmin.2, Bool.false_or, Bool.false_or]

/-- The code's direction test over the window `(cf - 1, cf, cf + 1)` agrees
with the spec-side formulation: the source uses the two backward displacement
vectors, whose common negation leaves both `det` and `dot` unchanged. -/
theorem is_ball_direction_changed_eq_spec (ep : Episode) (cf : ℕ) :
    is_ball_direction_changed ep cf (cf - 1) (cf + 1) = spec_direction_changed ep cf := by
  simp only [is_ball_direction_changed, spec_direction_changed]
  congr 1 <;> ring

/-- The code's possession-retention loop over the forward window agrees with
the spec-side sustained-control formulation. -/
theorem sustained_eq_spec (ep : Episode) (cf new_pwb : ℕ) :
    ((List.range (min (cf + GracePeriodPlayer) (ep.length - 1) + 1 - cf)).all fun i =>
        !(is_ball_faraway ep new_pwb (cf + i)))
      = spec_sustained_control ep cf new_pwb := by
  unfold spec_sustained_control
  rw [List.range'_eq_map_range, List.all_map]
  have hfun :
      (fun i => !(is_ball_faraway ep new_pwb (cf + i)))
        = ((fun f => decide (distSq (get_player_coordinates ep new_pwb f)
              (get_ball_coordinates ep f) ≤ VicinityThreshold ^ 2)) ∘ (cf + ·)) := by
    funext i
    simp only [is_ball_faraway, Function.comp_apply, ← decide_not, decide_eq_decide, not_lt,
      gt_iff_lt]
  rw [hfun]

/-- Claim C2: inside its calling context (`1 ≤ current_frame < episode
length`), the possession-change confirmation rule is: true at the episode's
last frame; otherwise true iff the ball's speed changed by more than a 1.5×
factor across the ±1 window (near-zero prior or next speed counting as
changed), or its direction changed by more than π/8 across that window, or
the candidate stays within the vicinity threshold on every frame of the
forward window `[cf, cf + 5]` truncated at episode end. -/
theorem claim_C2_possession_confirmation (ep : Episode) (s : RecState) (new_pwb : ℕ)
    (h1 : 1 ≤ s.current_frame) (h2 : s.current_frame < ep.length) :
    is_possession_changed ep s new_pwb =
      (decide (s.current_frame = ep.length - 1)
        || spec_speed_changed ep s.current_frame
        || spec_direction_changed ep s.current_frame
        || spec_sustained_control ep s.current_frame new_pwb) := by
  simp only [is_possession_changed]
  by_cases hlast : s.current_frame = ep.length - 1
  · simp [hlast]
  · have hnext : min (s.current_frame + GracePeriodBall) (ep.length - 1)
        = s.current_frame + 1 := by
      unfold GracePeriodBall
      omega
    have hprev : s.current_frame - GracePeriodBall = s.current_frame - 1 := rfl
    rw [if_neg hlast, hnext, hprev,
      is_ball_speed_changed_eq_spec ep s.current_frame h1,
      is_ball_direction_changed_eq_spec ep s.current_frame,
      sustained_eq_spec ep s.current_frame new_pwb, decide_eq_false hlast, Bool.false_or]
    cases hsp : spec_speed_changed ep s.current_frame <;>
      cases hdir : spec_direction_changed ep s.current_frame <;>
        simp [hsp, hdir]

/-- Witness for C2 on the concrete episode `epW` at candidate frame 1. -/
theorem claim_C2_witness :
    is_possession_changed epW stC2 3 =
      (decide (stC2.current_frame = epW.length - 1)
        || spec_speed_changed epW stC2.current_frame
        || spec_direction_changed epW stC2.current_frame
        || spec_sustained_control epW stC2.current_frame 3) :=
  claim_C2_possession_confirmation epW stC2 3 (by decide) (by decide)

/-- Transport of the run invariant along a state change that keeps `events`
and `trace` and does not move the cursor backwards. -/
theorem Inv_fields (ep : Episode) (s t : RecState)
    (hev : t.events = s.events) (htr : t.trace = s.trace)
    (hcf : s.current_frame ≤ t.current_frame)
    (hpwb : ∀ n, t.pwb = some n → n < 22)
    (hprev : ∀ n, t.prev_pwb = some n → n < 22)
    (hinv : Inv ep s) : Inv ep t := by
  obtain ⟨h1, h2, h3, h4, h5, h6, h7⟩ := hinv
  refine ⟨by rw [hev]; exact h1, ?_, by rw [hev]; exact h3, by rw [htr]; exact h4,
    hpwb, hprev, by rw [hev]; exact h7⟩
  intro k hk
  rw [hev] at hk
  have hb := h2 k hk
  have hcast : (s.current_frame : ℤ) ≤ (t.current_frame : ℤ) := by exact_mod_cast hcf
  omega

/-- Unfolding of the `allWithin300` hypothesis at a valid frame index. -/
theorem allWithin300_spec (ep : Episode) (h : allWithin300 ep = true) (f : ℕ)
    (hf : f < ep.length) (q : ℕ) (hq : q < 22) :
    distSq (get_player_coordinates ep q f) (get_ball_coordinates ep f) < 300 ^ 2 := by
  unfold allWithin300 at h
  rw [List.all_eq_true] at h
  have hmem : ep.getD f [] ∈ ep := by
    rw [List.getD_eq_getElem?_getD, List.getElem?_eq_getElem hf]
    exact List.getElem_mem hf
  have h2 := h _ hmem
  rw [List.all_eq_true] at h2
  have h3 := h2 q (List.mem_range.mpr hq)
  simpa [get_player_coordinates, get_ball_coordinates] using of_decide_eq_true h3

/-- Dict assignment at a fresh key is an append. -/
theorem dict_insert_not_mem (m : List (ℤ × Event)) (k : ℤ) (v : Event)
    (h : ∀ pr ∈ m, pr.1 ≠ k) : dict_insert m k v = m ++ [(k, v)] := by
  unfold dict_insert
  rw [if_neg]
  intro hany
  rw [List.any_eq_true] at hany
  obtain ⟨pr, hpr, hbeq⟩ := hany
  exact h pr hpr (by simpa using hbeq)

/-- Appending a strict upper bound preserves a strictly increasing chain. -/
theorem chain_lt_append (l : List ℤ) (x : ℤ)
    (hl : List.Chain' (fun a b => a < b) l) (hx : ∀ k ∈ l, k < x) :
    List.Chain' (fun a b => a < b) (l ++ [x]) := by
  apply List.Chain'.append hl (List.chain'_singleton x)
  intro a ha b hb
  simp only [List.head?_cons, Option.mem_def, Option.some.injEq] at hb
  subst hb
  exact hx a (List.mem_of_mem_getLast? ha)

/-- Function `np_argmin` returns a valid index on nonempty lists. -/
theorem np_argmin_lt_length : ∀ (l : List ℚ), l ≠ [] → np_argmin l < l.length
  | [], h => absurd rfl h
  | [_], _ => by simp [np_argmin]
  | _ :: w :: vs, _ => by
    simp only [np_argmin]
    split
    · exact Nat.succ_lt_succ (np_argmin_lt_length (w :: vs) (by simp))
    · simp

/-- Function `np_argmin` indexes a minimal entry. -/
theorem np_argmin_le : ∀ (l : List ℚ) (j : ℕ), j < l.length →
    l.getD (np_argmin l) 0 ≤ l.getD j 0
  | [], j, h => by simp at h
  | [v], j, h => by
    have hj : j = 0 := by simpa using Nat.lt_one_iff.mp (by simpa using h)
    subst hj
    simp [np_argmin]
  | v :: w :: vs, j, h => by
    simp only [np_argmin]
    split
    · rename_i hlt
      cases j with
      | zero => simpa using le_of_lt hlt
      | succ k =>
        simp only [List.getD_cons_succ]
        exact np_argmin_le (w :: vs) k (by simpa using h)
    · rename_i hge
      cases j with
      | zero => simp
      | succ k =>
        simp only [List.getD_cons_zero, List.getD_cons_succ]
        exact (not_lt.1 hge).trans (np_argmin_le (w :: vs) k (by simpa using h))

theorem get_distances_to_ball_length (ep : Episode) (f : ℕ) (b : Pt) :
    (get_distances_to_ball ep f b).length = 22 := by
  simp [get_distances_to_ball]

theorem get_distances_to_ball_getD (ep : Episode) (f : ℕ) (b : Pt) (j : ℕ) (hj : j < 22) :
    (get_distances_to_ball ep f b).getD j 0 = distSq (get_player_coordinates ep j f) b := by
  simp [get_distances_to_ball, List.getD_eq_getElem?_getD, List.getElem?_map,
    List.getElem?_range hj]

theorem set_getD_self (l : List ℚ) (i : ℕ) (x : ℚ) (h : i < l.length) :
    (l.set i x).getD i 0 = x := by
  simp [List.getD_eq_getElem?_getD, List.getElem?_set_self h]

theorem set_getD_ne (l : List ℚ) (i j : ℕ) (x : ℚ) (h : i ≠ j) :
    (l.set i x).getD j 0 = l.getD j 0 := by
  simp [List.getD_eq_getElem?_getD, List.getElem?_set_ne h]

theorem take_getD (l : List ℚ) (n j : ℕ) (h : j < n) :
    (l.take n).getD j 0 = l.getD j 0 := by
  simp [List.getD_eq_getElem?_getD, List.getElem?_take, h]

theorem drop_getD (l : List ℚ) (n j : ℕ) :
    (l.drop n).getD j 0 = l.getD (n + j) 0 := by
  simp [List.getD_eq_getElem?_getD, List.getElem?_drop]

/-- Behaviour of the 300 m-sentinel closest-teammate rule whenever some other
same-side player `t` is strictly within 300 m of the reference ball position:
the result is a same-side player different from the possessor `p` whose
distance is minimal among all same-side players other than `p`. -/
theorem get_closest_teammate_spec (ep : Episode) (f : ℕ) (b : Pt) (p t : ℕ)
    (hp : p < 22) (ht : t < 22) (htp : t ≠ p)
    (hside1 : p < 11 → t < 11) (hside2 : 11 ≤ p → 11 ≤ t)
    (hclose : distSq (get_player_coordinates ep t f) b < 300 ^ 2) :
    get_closest_teammate ep f b p ≠ p
    ∧ get_closest_teammate ep f b p < 22
    ∧ (p < 11 → get_closest_teammate ep f b p < 11)
    ∧ (11 ≤ p → 11 ≤ get_closest_teammate ep f b p)
    ∧ (∀ q, q < 22 → q ≠ p → (p < 11 → q < 11) → (11 ≤ p → 11 ≤ q) →
        distSq (get_player_coordinates ep (get_closest_teammate ep f b p) f) b
          ≤ distSq (get_player_coordinates ep q f) b) := by
  have hdlen : (get_distances_to_ball ep f b).length = 22 := get_distances_to_ball_length ep f b
  have hd'len : ((get_distances_to_ball ep f b).set p (300 ^ 2)).length = 22 := by
    simp [hdlen]
  by_cases hp11 : p < 11
  · have hres : get_closest_teammate ep f b p
        = np_argmin (((get_distances_to_ball ep f b).set p (300 ^ 2)).take 11) := by
      simp [get_closest_teammate, hp11]
    have hllen : ((((get_distances_to_ball ep f b).set p (300 ^ 2))).take 11).length = 11 := by
      simp [hd'len]
    have hlne : ((((get_distances_to_ball ep f b).set p (300 ^ 2))).take 11) ≠ [] := by
      intro hnil
      rw [hnil] at hllen
      simp at hllen
    have hr11 : np_argmin (((get_distances_to_ball ep f b).set p (300 ^ 2)).take 11) < 11 := by
      have := np_argmin_lt_length _ hlne
      rwa [hllen] at this
    have hval : ∀ j, j < 11 → j ≠ p →
        (((get_distances_to_ball ep f b).set p (300 ^ 2)).take 11).getD j 0
          = distSq (get_player_coordinates ep j f) b := by
      intro j hj hjp
      rw [take_getD _ _ _ hj, set_getD_ne _ _ _ _ (Ne.symm hjp),
        get_distances_to_ball_getD ep f b j (by omega)]
    have hvalp : (((get_distances_to_ball ep f b).set p (300 ^ 2)).take 11).getD p 0
        = 300 ^ 2 := by
      rw [take_getD _ _ _ hp11, set_getD_self _ _ _ (by omega)]
    have hmin : ∀ j, j < 11 →
        (((get_distances_to_ball ep f b).set p (300 ^ 2)).take 11).getD
            (np_argmin (((get_distances_to_ball ep f b).set p (300 ^ 2)).take 11)) 0
          ≤ (((get_distances_to_ball ep f b).set p (300 ^ 2)).take 11).getD j 0 := by
      intro j hj
      exact np_argmin_le _ j (by rwa [hllen])
    have ht11 : t < 11 := hside1 hp11
    have hlt300 : (((get_distances_to_ball ep f b).set p (300 ^ 2)).take 11).getD
        (np_argmin (((get_distances_to_ball ep f b).set p (300 ^ 2)).take 11)) 0 < 300 ^ 2 := by
      calc _ ≤ (((get_distances_to_ball ep f b).set p (300 ^ 2)).take 11).getD t 0 :=
            hmin t ht11
        _ = distSq (get_player_coordinates ep t f) b := hval t ht11 htp
        _ < 300 ^ 2 := hclose
    have hrp : np_argmin (((get_distances_to_ball ep f b).set p (300 ^ 2)).take 11) ≠ p := by
      intro he
      rw [he, hvalp] at hlt300
      exact absurd hlt300 (lt_irrefl _)
    refine ⟨by rw [hres]; exact hrp, by rw [hres]; omega, fun _ => by rw [hres]; exact hr11,
      fun hge => absurd hge (by omega), ?_⟩
    intro q hq hqp hq1 _
    have hq11 : q < 11 := hq1 hp11
    rw [hres, ← hval _ hr11 hrp, ← hval q hq11 hqp]
    exact hmin q hq11
  · have hge11 : 11 ≤ p := by omega
    have hres : get_closest_teammate ep f b p
        = np_argmin (((get_distances_to_ball ep f b).set p (300 ^ 2)).drop 11) + 11 := by
      simp [get_closest_teammate, hp11]
    have hllen : ((((get_distances_to_ball ep f b).set p (300 ^ 2))).drop 11).length = 11 := by
      simp [hd'len]
    have hlne : ((((get_distances_to_ball ep f b).set p (300 ^ 2))).drop 11) ≠ [] := by
      intro hnil
      rw [hnil] at hllen
      simp at hllen
    have hr11 : np_argmin (((get_distances_to_ball ep f b).set p (300 ^ 2)).drop 11) < 11 := by
      have := np_argmin_lt_length _ hlne
      rwa [hllen] at this
    have hval : ∀ j, j < 11 → 11 + j ≠ p →
        (((get_distances_to_ball ep f b).set p (300 ^ 2)).drop 11).getD j 0
          = distSq (get_player_coordinates ep (11 + j) f) b := by
      intro j hj hjp
      rw [drop_getD, set_getD_ne _ _ _ _ (Ne.symm hjp),
        get_distances_to_ball_getD ep f b (11 + j) (by omega)]
    have hvalp : (((get_distances_to_ball ep f b).set p (300 ^ 2)).drop 11).getD (p - 11) 0
        = 300 ^ 2 := by
      rw [drop_getD, show 11 + (p - 11) = p by omega, set_getD_self _ _ _ (by omega)]
    have hmin : ∀ j, j < 11 →
        (((get_distances_to_ball ep f b).set p (300 ^ 2)).drop 11).getD
            (np_argmin (((get_distances_to_ball ep f b).set p (300 ^ 2)).drop 11)) 0
          ≤ (((get_distances_to_ball ep f b).set p (300 ^ 2)).drop 11).getD j 0 := by
      intro j hj
      exact np_argmin_le _ j (by rwa [hllen])
    have ht11 : 11 ≤ t := hside2 hge11
    have hlt300 : (((get_distances_to_ball ep f b).set p (300 ^ 2)).drop 11).getD
        (np_argmin (((get_distances_to_ball ep f b).set p (300 ^ 2)).drop 11)) 0 < 300 ^ 2 := by
      calc _ ≤ (((get_distances_to_ball ep f b).set p (300 ^ 2)).drop 11).getD (t - 11) 0 :=
            hmin (t - 11) (by omega)
        _ = distSq (get_player_coordinates ep (11 + (t - 11)) f) b :=
            hval (t - 11) (by omega) (by omega)
        _ = distSq (get_player_coordinates ep t f) b := by rw [show 11 + (t - 11) = t by omega]
        _ < 300 ^ 2 := hclose
    have hrp : np_argmin (((get_distances_to_ball ep f b).set p (300 ^ 2)).drop 11) + 11 ≠ p := by
      intro he
      have hpe : p - 11 = np_argmin (((get_distances_to_ball ep f b).set p (300 ^ 2)).drop 11) := by
        omega
      rw [← hpe, hvalp] at hlt300
      exact absurd hlt300 (lt_irrefl _)
    refine ⟨by rw [hres]; exact hrp, by rw [hres]; omega, fun hlt => absurd hlt hp11,
      fun _ => by rw [hres]; omega, ?_⟩
    intro q hq hqp _ hq2
    have hq11 : 11 ≤ q := hq2 hge11
    have hrw1 : distSq (get_player_coordinates ep
        (np_argmin (((get_distances_to_ball ep f b).set p (300 ^ 2)).drop 11) + 11) f) b
        = (((get_distances_to_ball ep f b).set p (300 ^ 2)).drop 11).getD
            (np_argmin (((get_distances_to_ball ep f b).set p (300 ^ 2)).drop 11)) 0 := by
      rw [hval _ hr11 (by omega),
        Nat.add_comm 11 (np_argmin (((get_distances_to_ball ep f b).set p (300 ^ 2)).drop 11))]
    have hrw2 : distSq (get_player_coordinates ep q f) b
        = (((get_distances_to_ball ep f b).set p (300 ^ 2)).drop 11).getD (q - 11) 0 := by
      rw [hval (q - 11) (by omega) (by omega), show (11 : ℕ) + (q - 11) = q from by omega]
    rw [hres, hrw1, hrw2]
    exact hmin (q - 11) (by omega)

/-- Function `detect_pass_shot` mutates only `pwb`. -/
theorem detect_pass_shot_state (ep : Episode) (s : RecState) :
    (detect_pass_shot ep s).1.current_frame = s.current_frame
    ∧ (detect_pass_shot ep s).1.prev_pwb = s.prev_pwb
    ∧ (detect_pass_shot ep s).1.event_frame = s.event_frame
    ∧ (detect_pass_shot ep s).1.events = s.events
    ∧ (detect_pass_shot ep s).1.trace = s.trace := by
  simp only [detect_pass_shot]
  repeat' split
  all_goals exact ⟨rfl, rfl, rfl, rfl, rfl⟩

/-- Function `verify_failed_pass` returns a tackle or a fully described failed pass. -/
theorem verify_failed_pass_cases (ep : Episode) (s : RecState) (b : Pt) :
    verify_failed_pass ep s b = { frame := (s.current_frame : ℤ), kind := .tackle }
    ∨ verify_failed_pass ep s b =
        { frame := s.event_frame.getD 0, kind := .failed_pass, player := s.prev_pwb,
          target := some (get_closest_teammate ep s.current_frame b (s.prev_pwb.getD 0)) } := by
  simp only [verify_failed_pass, get_event]
  split
  · exact Or.inl rfl
  · exact Or.inr rfl

/-- Function `verify_shot` returns a shot or falls through to `verify_failed_pass`. -/
theorem verify_shot_cases (ep : Episode) (s : RecState) (b : Pt) :
    verify_shot ep s b =
        { frame := s.event_frame.getD 0, kind := .shot, player := s.prev_pwb, target := none }
    ∨ verify_shot ep s b = verify_failed_pass ep s b := by
  simp only [verify_shot, get_event]
  split
  · exact Or.inl rfl
  · exact Or.inr rfl

/-- Function `get_closest_player` returns an index below 22. -/
theorem get_closest_player_lt (ep : Episode) (f : ℕ) (n : ℕ)
    (h : get_closest_player ep f = some n) : n < 22 := by
  simp only [get_closest_player] at h
  split at h
  · exact absurd h (by simp)
  · simp only [Option.some.injEq] at h
    subst h
    have hne : get_distances_to_ball ep f (get_ball_coordinates ep f) ≠ [] := by
      intro hnil
      have := get_distances_to_ball_length ep f (get_ball_coordinates ep f)
      rw [hnil] at this
      simp at this
    have := np_argmin_lt_length _ hne
    rwa [get_distances_to_ball_length] at this

/-- Any possessor index set by `detect_pass_shot` is below 22. -/
theorem detect_pass_shot_pwb (ep : Episode) (s : RecState)
    (hs : ∀ m, s.pwb = some m → m < 22) :
    ∀ n, (detect_pass_shot ep s).1.pwb = some n → n < 22 := by
  intro n h
  simp only [detect_pass_shot] at h
  split at h
  · simp at h
  · split at h
    · split at h <;> simp at h
    · split at h
      · exact hs n h
      · rename_i new_pwb heq
        split at h
        · simp only [Option.some.injEq] at h
          exact h ▸ get_closest_player_lt ep s.current_frame new_pwb heq
        · split at h
          · split at h <;>
              (simp only [Option.some.injEq] at h
               exact h ▸ get_closest_player_lt ep s.current_frame new_pwb heq)
          · exact hs n h

/-- Characterization of a stored (non-transient) event returned by
`detect_pass_shot`: its frame is the recorded `event_frame`, its player the
prior possessor; a `pass` target is a confirmed new possessor different
from the prior one, and a `failed_pass` target comes from the
closest-teammate rule against the current frame's ball position. -/
theorem detect_pass_shot_emit (ep : Episode) (s : RecState) (ev : Event)
    (h : (detect_pass_shot ep s).2 = some ev)
    (hk1 : ev.kind ≠ .faraway) (hk2 : ev.kind ≠ .tackle) :
    ev.frame = s.event_frame.getD 0 ∧ ev.player = s.prev_pwb
    ∧ (ev.kind = .pass → ∃ n, ev.target = some n ∧ some n ≠ s.prev_pwb)
    ∧ (ev.kind = .failed_pass →
        ev.target = some (get_closest_teammate ep s.current_frame
          (get_ball_coordinates ep s.current_frame) (s.prev_pwb.getD 0))) := by
  simp only [detect_pass_shot] at h
  split at h
  · simp only [Option.some.injEq] at h
    rcases verify_failed_pass_cases ep { s with pwb := none }
        (get_ball_coordinates ep s.current_frame) with hc | hc <;> rw [hc] at h
    · exact absurd (h ▸ rfl) hk2
    · subst h
      exact ⟨rfl, rfl, fun hp => by simp at hp, fun _ => rfl⟩
  · split at h
    · split at h
      · simp only [Option.some.injEq, get_event] at h
        subst h
        exact ⟨rfl, rfl, fun hp => by simp at hp, fun hp => by simp at hp⟩
      · simp only [Option.some.injEq] at h
        rcases verify_failed_pass_cases ep { s with pwb := none }
            (get_ball_coordinates ep s.current_frame) with hc | hc <;> rw [hc] at h
        · exact absurd (h ▸ rfl) hk2
        · subst h
          exact ⟨rfl, rfl, fun hp => by simp at hp, fun _ => rfl⟩
    · split at h
      · simp at h
      · rename_i new_pwb heq
        split at h
        · simp only [Option.some.injEq] at h
          exact absurd (h ▸ rfl) hk1
        · rename_i hnotsame
          split at h
          · split at h
            · simp only [Option.some.injEq] at h
              rcases verify_shot_cases ep { s with pwb := some new_pwb }
                  (get_ball_coordinates ep s.current_frame) with hc | hc <;> rw [hc] at h
              · subst h
                exact ⟨rfl, rfl, fun hp => by simp at hp, fun hp => by simp at hp⟩
              · rcases verify_failed_pass_cases ep { s with pwb := some new_pwb }
                    (get_ball_coordinates ep s.current_frame) with hc2 | hc2 <;> rw [hc2] at h
                · exact absurd (h ▸ rfl) hk2
                · subst h
                  exact ⟨rfl, rfl, fun hp => by simp at hp, fun _ => rfl⟩
            · simp only [Option.some.injEq, get_event] at h
              subst h
              exact ⟨rfl, rfl, fun _ => ⟨new_pwb, rfl, hnotsame⟩, fun hp => by simp at hp⟩
          · simp at h

/- The four loops below are unfolded through the conditioned step equations
that follow.  The leaf query functions are made irreducible first: nothing
below depends on their definitional unfolding (concrete evaluations use
kernel reduction, symbolic proofs use their equations), and keeping them
sealed prevents the equation generator from expanding the 22-player
arg-min symbolically. -/

attribute [irreducible] get_closest_player is_ball_faraway detect_pass_shot

theorem find_possession_loop_zero (ep : Episode) (s : RecState) :
    find_possession_loop ep 0 s = s := rfl

theorem find_possession_loop_found (ep : Episode) (fuel : ℕ) (s : RecState) (m : ℕ)
    (hlt : s.current_frame < ep.length)
    (hgc : get_closest_player ep s.current_frame = some m) :
    find_possession_loop ep (fuel + 1) s
      = { s with current_frame := s.current_frame + 1, pwb := some m } := by
  conv_lhs => rw [find_possession_loop]
  rw [if_pos hlt, hgc]

theorem find_possession_loop_cont (ep : Episode) (fuel : ℕ) (s : RecState)
    (hlt : s.current_frame < ep.length)
    (hgc : get_closest_player ep s.current_frame = none) :
    find_possession_loop ep (fuel + 1) s
      = find_possession_loop ep fuel { s with current_frame := s.current_frame + 1 } := by
  conv_lhs => rw [find_possession_loop]
  rw [if_pos hlt, hgc]

theorem find_possession_loop_end (ep : Episode) (fuel : ℕ) (s : RecState)
    (hge : ¬ s.current_frame < ep.length) :
    find_possession_loop ep (fuel + 1) s = s := by
  conv_lhs => rw [find_possession_loop]
  rw [if_neg hge]

theorem find_faraway_loop_zero (ep : Episode) (s : RecState) :
    find_faraway_loop ep 0 s = s := rfl

theorem find_faraway_loop_break (ep : Episode) (fuel : ℕ) (s : RecState)
    (hlt : s.current_frame < ep.length)
    (hfar : is_ball_faraway ep (s.pwb.getD 0) s.current_frame = true) :
    find_faraway_loop ep (fuel + 1) s
      = { s with prev_pwb := s.pwb, event_frame := some ((s.current_frame : ℤ) - 1) } := by
  conv_lhs => rw [find_faraway_loop]
  rw [if_pos hlt, if_pos hfar]

theorem find_faraway_loop_cont (ep : Episode) (fuel : ℕ) (s : RecState)
    (hlt : s.current_frame < ep.length)
    (hfar : ¬ is_ball_faraway ep (s.pwb.getD 0) s.current_frame = true) :
    find_faraway_loop ep (fuel + 1) s
      = find_faraway_loop ep fuel { s with current_frame := s.current_frame + 1 } := by
  conv_lhs => rw [find_faraway_loop]
  rw [if_pos hlt, if_neg hfar]

theorem find_faraway_loop_end (ep : Episode) (fuel : ℕ) (s : RecState)
    (hge : ¬ s.current_frame < ep.length) :
    find_faraway_loop ep (fuel + 1) s = s := by
  conv_lhs => rw [find_faraway_loop]
  rw [if_neg hge]

theorem inner_loop_zero (ep : Episode) (s : RecState) : inner_loop ep 0 s = s := rfl

theorem inner_loop_none (ep : Episode) (fuel : ℕ) (s : RecState)
    (hlt : s.current_frame < ep.length)
    (hdet : (detect_pass_shot ep s).2 = none) :
    inner_loop ep (fuel + 1) s
      = inner_loop ep fuel
          { (detect_pass_shot ep s).1 with
              current_frame := (detect_pass_shot ep s).1.current_frame + 1 } := by
  conv_lhs => rw [inner_loop]
  rw [if_pos hlt, hdet]

theorem inner_loop_transient (ep : Episode) (fuel : ℕ) (s : RecState) (ev : Event)
    (hlt : s.current_frame < ep.length)
    (hdet : (detect_pass_shot ep s).2 = some ev)
    (hk : ev.kind = .faraway ∨ ev.kind = .tackle) :
    inner_loop ep (fuel + 1) s
      = { (detect_pass_shot ep s).1 with
            current_frame := (detect_pass_shot ep s).1.current_frame + 1,
            trace := (detect_pass_shot ep s).1.trace
              ++ [((detect_pass_shot ep s).1.prev_pwb, ev)] } := by
  conv_lhs => rw [inner_loop]
  rw [if_pos hlt, hdet]
  simp only [if_pos hk]

theorem inner_loop_store (ep : Episode) (fuel : ℕ) (s : RecState) (ev : Event)
    (hlt : s.current_frame < ep.length)
    (hdet : (detect_pass_shot ep s).2 = some ev)
    (hk : ¬ (ev.kind = .faraway ∨ ev.kind = .tackle)) :
    inner_loop ep (fuel + 1) s
      = { (detect_pass_shot ep s).1 with
            current_frame := (detect_pass_shot ep s).1.current_frame + 1,
            trace := (detect_pass_shot ep s).1.trace
              ++ [((detect_pass_shot ep s).1.prev_pwb, ev)],
            events := dict_insert (detect_pass_shot ep s).1.events ev.frame ev } := by
  conv_lhs => rw [inner_loop]
  rw [if_pos hlt, hdet]
  simp only [if_neg hk]

theorem inner_loop_end (ep : Episode) (fuel : ℕ) (s : RecState)
    (hge : ¬ s.current_frame < ep.length) :
    inner_loop ep (fuel + 1) s = s := by
  conv_lhs => rw [inner_loop]
  rw [if_neg hge]

theorem main_loop_zero (ep : Episode) (s : RecState) : main_loop ep 0 s = s := rfl

theorem main_loop_step (ep : Episode) (fuel : ℕ) (s : RecState)
    (hlt : s.current_frame < ep.length) :
    main_loop ep (fuel + 1) s
      = main_loop ep fuel (inner_loop ep ep.length (find_ball_faraway ep s)) := by
  conv_lhs => rw [main_loop]
  rw [if_pos hlt]

theorem main_loop_end (ep : Episode) (fuel : ℕ) (s : RecState)
    (hge : ¬ s.current_frame < ep.length) :
    main_loop ep (fuel + 1) s = s := by
  conv_lhs => rw [main_loop]
  rw [if_neg hge]

/-- Behaviour of the possession-seeking loop: it only advances the cursor
(never past any bound holding both the start cursor and the episode length),
touches no field but `pwb` and the cursor, any possessor it sets is a valid
index, and with sufficient fuel it ends with a possessor or an exhausted
cursor. -/
theorem find_possession_loop_spec (ep : Episode) : ∀ (fuel : ℕ) (s : RecState),
    (find_possession_loop ep fuel s).prev_pwb = s.prev_pwb
    ∧ (find_possession_loop ep fuel s).event_frame = s.event_frame
    ∧ (find_possession_loop ep fuel s).events = s.events
    ∧ (find_possession_loop ep fuel s).trace = s.trace
    ∧ s.current_frame ≤ (find_possession_loop ep fuel s).current_frame
    ∧ (∀ L, s.current_frame ≤ L → ep.length ≤ L →
        (find_possession_loop ep fuel s).current_frame ≤ L)
    ∧ (∀ n, (find_possession_loop ep fuel s).pwb = some n → n < 22 ∨ s.pwb = some n)
    ∧ (ep.length ≤ s.current_frame + fuel →
        (find_possession_loop ep fuel s).pwb ≠ none
        ∨ ep.length ≤ (find_possession_loop ep fuel s).current_frame)
  | 0, s => by
    rw [find_possession_loop_zero]
    exact ⟨rfl, rfl, rfl, rfl, le_refl _, fun _ hL _ => hL, fun n h => Or.inr h,
      fun hle => Or.inr (by omega)⟩
  | fuel + 1, s => by
    by_cases hlt : s.current_frame < ep.length
    · cases hgc : get_closest_player ep s.current_frame with
      | some m =>
        rw [find_possession_loop_found ep fuel s m hlt hgc]
        refine ⟨rfl, rfl, rfl, rfl, Nat.le_succ _, ?_, ?_, ?_⟩
        · intro L hsL hlL
          exact show s.current_frame + 1 ≤ L by omega
        · intro n h
          have hmn : some m = some n := h
          injection hmn with hmn2
          exact Or.inl (hmn2 ▸ get_closest_player_lt ep s.current_frame m hgc)
        · intro _
          exact Or.inl (show (some m : Option ℕ) ≠ none from Option.some_ne_none m)
      | none =>
        rw [find_possession_loop_cont ep fuel s hlt hgc]
        obtain ⟨i1, i2, i3, i4, i5, i6, i7, i8⟩ :=
          find_possession_loop_spec ep fuel { s with current_frame := s.current_frame + 1 }
        have i5h : s.current_frame + 1 ≤
            (find_possession_loop ep fuel
              { s with current_frame := s.current_frame + 1 }).current_frame := i5
        refine ⟨i1, i2, i3, i4, by omega, ?_, i7, ?_⟩
        · intro L hsL hlL
          exact i6 L (show s.current_frame + 1 ≤ L by omega) hlL
        · intro _
          exact i8 (show ep.length ≤ s.current_frame + 1 + fuel by omega)
    · rw [find_possession_loop_end ep fuel s hlt]
      exact ⟨rfl, rfl, rfl, rfl, le_refl _, fun _ hL _ => hL, fun n h => Or.inr h,
        fun _ => Or.inr (show ep.length ≤ s.current_frame by omega)⟩

/-- Behaviour of the faraway-seeking loop: it advances only the cursor; on a
break it copies `pwb` into `prev_pwb` and records `event_frame
= current_frame - 1` with the cursor still inside the episode; with
sufficient fuel it either breaks or exhausts the episode. -/
theorem find_faraway_loop_spec (ep : Episode) : ∀ (fuel : ℕ) (s : RecState),
    (find_faraway_loop ep fuel s).pwb = s.pwb
    ∧ (find_faraway_loop ep fuel s).events = s.events
    ∧ (find_faraway_loop ep fuel s).trace = s.trace
    ∧ s.current_frame ≤ (find_faraway_loop ep fuel s).current_frame
    ∧ (∀ L, s.current_frame ≤ L → ep.length ≤ L →
        (find_faraway_loop ep fuel s).current_frame ≤ L)
    ∧ ((find_faraway_loop ep fuel s).prev_pwb = s.prev_pwb
        ∧ (find_faraway_loop ep fuel s).event_frame = s.event_frame
      ∨ (find_faraway_loop ep fuel s).prev_pwb = s.pwb
        ∧ (find_faraway_loop ep fuel s).event_frame
            = some (((find_faraway_loop ep fuel s).current_frame : ℤ) - 1)
        ∧ (find_faraway_loop ep fuel s).current_frame < ep.length)
    ∧ (ep.length ≤ s.current_frame + fuel →
        ep.length ≤ (find_faraway_loop ep fuel s).current_frame
        ∨ ((find_faraway_loop ep fuel s).prev_pwb = s.pwb
            ∧ (find_faraway_loop ep fuel s).event_frame
                = some (((find_faraway_loop ep fuel s).current_frame : ℤ) - 1)
            ∧ (find_faraway_loop ep fuel s).current_frame < ep.length))
  | 0, s => by
    rw [find_faraway_loop_zero]
    exact ⟨rfl, rfl, rfl, le_refl _, fun _ hL _ => hL, Or.inl ⟨rfl, rfl⟩,
      fun hle => Or.inl (by omega)⟩
  | fuel + 1, s => by
    by_cases hlt : s.current_frame < ep.length
    · by_cases hfar : is_ball_faraway ep (s.pwb.getD 0) s.current_frame = true
      · rw [find_faraway_loop_break ep fuel s hlt hfar]
        exact ⟨rfl, rfl, rfl, le_refl _, fun _ hL _ => hL, Or.inr ⟨rfl, rfl, hlt⟩,
          fun _ => Or.inr ⟨rfl, rfl, hlt⟩⟩
      · rw [find_faraway_loop_cont ep fuel s hlt hfar]
        obtain ⟨i1, i2, i3, i4, i5, i6, i7⟩ :=
          find_faraway_loop_spec ep fuel { s with current_frame := s.current_frame + 1 }
        have i4h : s.current_frame + 1 ≤
            (find_faraway_loop ep fuel
              { s with current_frame := s.current_frame + 1 }).current_frame := i4
        refine ⟨i1, i2, i3, by omega, ?_, i6, ?_⟩
        · intro L hsL hlL
          exact i5 L (show s.current_frame + 1 ≤ L by omega) hlL
        · intro _
          exact i7 (show ep.length ≤ s.current_frame + 1 + fuel by omega)
    · rw [find_faraway_loop_end ep fuel s hlt]
      exact ⟨rfl, rfl, rfl, le_refl _, fun _ hL _ => hL, Or.inl ⟨rfl, rfl⟩,
        fun _ => Or.inl (show ep.length ≤ s.current_frame by omega)⟩

/-- Behaviour of `find_ball_faraway`: `events` and `trace` are untouched, the
cursor only advances (staying under any bound containing start and episode
length), possessor indices stay below 22, and either the episode is
exhausted or a possessor was remembered as `prev_pwb` with `event_frame =
current_frame - 1` while the cursor is still inside the episode. -/
theorem find_ball_faraway_spec (ep : Episode) (s : RecState)
    (hpwb : ∀ n, s.pwb = some n → n < 22) :
    (find_ball_faraway ep s).events = s.events
    ∧ (find_ball_faraway ep s).trace = s.trace
    ∧ s.current_frame ≤ (find_ball_faraway ep s).current_frame
    ∧ (∀ L, s.current_frame ≤ L → ep.length ≤ L →
        (find_ball_faraway ep s).current_frame ≤ L)
    ∧ (∀ n, (find_ball_faraway ep s).pwb = some n → n < 22)
    ∧ (∀ n, (find_ball_faraway ep s).prev_pwb = some n → n < 22 ∨ s.prev_pwb = some n)
    ∧ (ep.length ≤ (find_ball_faraway ep s).current_frame
      ∨ (∃ q, (find_ball_faraway ep s).prev_pwb = some q ∧ q < 22
          ∧ (find_ball_faraway ep s).event_frame
              = some (((find_ball_faraway ep s).current_frame : ℤ) - 1)
          ∧ (find_ball_faraway ep s).current_frame < ep.length)) := by
  unfold find_ball_faraway
  by_cases hnone : s.pwb = none
  · rw [if_pos hnone]
    simp only [find_possession_frame]
    obtain ⟨p1, p2, p3, p4, p5, p6, p7, p8⟩ := find_possession_loop_spec ep ep.length s
    obtain ⟨f1, f2, f3, f4, f5, f6, f7⟩ :=
      find_faraway_loop_spec ep ep.length (find_possession_loop ep ep.length s)
    have hs0pwb : ∀ n, (find_possession_loop ep ep.length s).pwb = some n → n < 22 := by
      intro n h
      rcases p7 n h with h22 | hcontra
      · exact h22
      · rw [hnone] at hcontra
        exact absurd hcontra (by simp)
    refine ⟨by rw [f2]; exact p3, by rw [f3]; exact p4, le_trans p5 f4, ?_, ?_, ?_, ?_⟩
    · intro L hsL hlL
      exact f5 L (p6 L hsL hlL) hlL
    · intro n h
      rw [f1] at h
      exact hs0pwb n h
    · intro n h
      rcases f6 with ⟨he, _⟩ | ⟨he, _, _⟩
      · rw [he, p1] at h
        exact Or.inr h
      · rw [he] at h
        exact Or.inl (hs0pwb n h)
    · rcases f7 (by omega) with hend | ⟨hprev, hef, hlt⟩
      · exact Or.inl hend
      · rcases p8 (by omega) with hne | hend
        · obtain ⟨q, hq⟩ := Option.ne_none_iff_exists'.mp hne
          exact Or.inr ⟨q, by rw [hprev]; exact hq, hs0pwb q hq, hef, hlt⟩
        · exact absurd (lt_of_lt_of_le hlt (le_trans hend f4)) (lt_irrefl _)
  · rw [if_neg hnone]
    obtain ⟨f1, f2, f3, f4, f5, f6, f7⟩ := find_faraway_loop_spec ep ep.length s
    refine ⟨f2, f3, f4, f5, ?_, ?_, ?_⟩
    · intro n h
      rw [f1] at h
      exact hpwb n h
    · intro n h
      rcases f6 with ⟨he, _⟩ | ⟨he, _, _⟩
      · exact Or.inr (he ▸ h)
      · rw [he] at h
        exact Or.inl (hpwb n h)
    · rcases f7 (by omega) with hend | ⟨hprev, hef, hlt⟩
      · exact Or.inl hend
      · obtain ⟨q, hq⟩ := Option.ne_none_iff_exists'.mp hnone
        exact Or.inr ⟨q, by rw [hprev]; exact hq, hpwb q hq, hef, hlt⟩

theorem inner_loop_cf_mono (ep : Episode) : ∀ (fuel : ℕ) (s : RecState),
    s.current_frame ≤ (inner_loop ep fuel s).current_frame
  | 0, s => by
    rw [inner_loop_zero]
  | fuel + 1, s => by
    by_cases hlt : s.current_frame < ep.length
    · obtain ⟨d1, d2, d3, d4, d5⟩ := detect_pass_shot_state ep s
      cases hdet : (detect_pass_shot ep s).2 with
      | none =>
        rw [inner_loop_none ep fuel s hlt hdet]
        have ih := inner_loop_cf_mono ep fuel
          { (detect_pass_shot ep s).1 with
              current_frame := (detect_pass_shot ep s).1.current_frame + 1 }
        have ih2 : (detect_pass_shot ep s).1.current_frame + 1 ≤
            (inner_loop ep fuel
              { (detect_pass_shot ep s).1 with
                  current_frame := (detect_pass_shot ep s).1.current_frame + 1 }).current_frame :=
          ih
        omega
      | some ev =>
        by_cases hk : ev.kind = .faraway ∨ ev.kind = .tackle
        · rw [inner_loop_transient ep fuel s ev hlt hdet hk]
          exact show s.current_frame ≤ (detect_pass_shot ep s).1.current_frame + 1 by omega
        · rw [inner_loop_store ep fuel s ev hlt hdet hk]
          exact show s.current_frame ≤ (detect_pass_shot ep s).1.current_frame + 1 by omega
    · rw [inner_loop_end ep fuel s hlt]

theorem inner_loop_cf_le (ep : Episode) : ∀ (fuel : ℕ) (s : RecState) (L : ℕ),
    s.current_frame ≤ L → ep.length ≤ L → (inner_loop ep fuel s).current_frame ≤ L
  | 0, s, L, hsL, _ => by
    rw [inner_loop_zero]
    exact hsL
  | fuel + 1, s, L, hsL, hlL => by
    by_cases hlt : s.current_frame < ep.length
    · obtain ⟨d1, d2, d3, d4, d5⟩ := detect_pass_shot_state ep s
      cases hdet : (detect_pass_shot ep s).2 with
      | none =>
        rw [inner_loop_none ep fuel s hlt hdet]
        exact inner_loop_cf_le ep fuel _ L
          (show (detect_pass_shot ep s).1.current_frame + 1 ≤ L by omega) hlL
      | some ev =>
        by_cases hk : ev.kind = .faraway ∨ ev.kind = .tackle
        · rw [inner_loop_transient ep fuel s ev hlt hdet hk]
          exact show (detect_pass_shot ep s).1.current_frame + 1 ≤ L by omega
        · rw [inner_loop_store ep fuel s ev hlt hdet hk]
          exact show (detect_pass_shot ep s).1.current_frame + 1 ≤ L by omega
    · rw [inner_loop_end ep fuel s hlt]
      exact hsL

theorem inner_loop_progress (ep : Episode) (fuel : ℕ) (s : RecState)
    (hlt : s.current_frame < ep.length) (hfuel : 1 ≤ fuel) :
    s.current_frame + 1 ≤ (inner_loop ep fuel s).current_frame := by
  obtain ⟨fuel, rfl⟩ : ∃ f, fuel = f + 1 := ⟨fuel - 1, by omega⟩
  obtain ⟨d1, d2, d3, d4, d5⟩ := detect_pass_shot_state ep s
  cases hdet : (detect_pass_shot ep s).2 with
  | none =>
    rw [inner_loop_none ep fuel s hlt hdet]
    have ih := inner_loop_cf_mono ep fuel
      { (detect_pass_shot ep s).1 with
          current_frame := (detect_pass_shot ep s).1.current_frame + 1 }
    have ih2 : (detect_pass_shot ep s).1.current_frame + 1 ≤
        (inner_loop ep fuel
          { (detect_pass_shot ep s).1 with
              current_frame := (detect_pass_shot ep s).1.current_frame + 1 }).current_frame :=
      ih
    omega
  | some ev =>
    by_cases hk : ev.kind = .faraway ∨ ev.kind = .tackle
    · rw [inner_loop_transient ep fuel s ev hlt hdet hk]
      exact show s.current_frame + 1 ≤ (detect_pass_shot ep s).1.current_frame + 1 by omega
    · rw [inner_loop_store ep fuel s ev hlt hdet hk]
      exact show s.current_frame + 1 ≤ (detect_pass_shot ep s).1.current_frame + 1 by omega

/-- Preservation of the run invariant by the inner loop, given the facts
established by the preceding `find_ball_faraway` phase: a valid prior
possessor and an `event_frame` strictly behind the cursor and strictly ahead
of every stored key. -/
theorem inner_loop_inv (ep : Episode) : ∀ (fuel : ℕ) (s : RecState) (p : ℕ),
    Inv ep s → s.prev_pwb = some p → p < 22 →
    (∀ k ∈ s.events.map Prod.fst, k + 1 ≤ s.event_frame.getD 0) →
    s.event_frame.getD 0 < (s.current_frame : ℤ) →
    Inv ep (inner_loop ep fuel s)
  | 0, s, p, hinv, _, _, _, _ => by
    rw [inner_loop_zero]
    exact hinv
  | fuel + 1, s, p, hinv, hprev, hp22, hkey, hef => by
    by_cases hlt : s.current_frame < ep.length
    case neg =>
      rw [inner_loop_end ep fuel s hlt]
      exact hinv
    case pos =>
    obtain ⟨d1, d2, d3, d4, d5⟩ := detect_pass_shot_state ep s
    obtain ⟨h1, h2, h3, h4, h5, h6, h7⟩ := hinv
    cases hdet : (detect_pass_shot ep s).2 with
    | none =>
      rw [inner_loop_none ep fuel s hlt hdet]
      apply inner_loop_inv ep fuel _ p
      · refine Inv_fields ep s _ ?_ ?_ ?_ ?_ ?_ ⟨h1, h2, h3, h4, h5, h6, h7⟩
        · exact d4
        · exact d5
        · exact show s.current_frame ≤ (detect_pass_shot ep s).1.current_frame + 1 by omega
        · exact fun n h => detect_pass_shot_pwb ep s h5 n h
        · intro n h
          rw [show ({ (detect_pass_shot ep s).1 with
              current_frame := (detect_pass_shot ep s).1.current_frame + 1 } : RecState).prev_pwb
              = (detect_pass_shot ep s).1.prev_pwb from rfl, d2] at h
          exact h6 n h
      · exact show (detect_pass_shot ep s).1.prev_pwb = some p from d2.trans hprev
      · exact hp22
      · intro k hk
        rw [show ({ (detect_pass_shot ep s).1 with
            current_frame := (detect_pass_shot ep s).1.current_frame + 1 } : RecState).events
            = (detect_pass_shot ep s).1.events from rfl, d4] at hk
        rw [show ({ (detect_pass_shot ep s).1 with
            current_frame := (detect_pass_shot ep s).1.current_frame + 1 } : RecState).event_frame
            = (detect_pass_shot ep s).1.event_frame from rfl, d3]
        exact hkey k hk
      · rw [show ({ (detect_pass_shot ep s).1 with
            current_frame := (detect_pass_shot ep s).1.current_frame + 1 } : RecState).event_frame
            = (detect_pass_shot ep s).1.event_frame from rfl, d3]
        rw [show ({ (detect_pass_shot ep s).1 with
            current_frame := (detect_pass_shot ep s).1.current_frame + 1 } : RecState).current_frame
            = (detect_pass_shot ep s).1.current_frame + 1 from rfl, d1]
        push_cast
        omega
    | some ev =>
      by_cases hk : ev.kind = .faraway ∨ ev.kind = .tackle
      · rw [inner_loop_transient ep fuel s ev hlt hdet hk]
        refine ⟨?_, ?_, ?_, ?_, ?_, ?_, ?_⟩
        · show List.Chain' (fun a b => a < b)
            ((detect_pass_shot ep s).1.events.map Prod.fst)
          rw [d4]
          exact h1
        · show ∀ k ∈ (detect_pass_shot ep s).1.events.map Prod.fst,
            k + 2 ≤ (((detect_pass_shot ep s).1.current_frame + 1 : ℕ) : ℤ)
          intro k hk2
          rw [d4] at hk2
          have hb := h2 k hk2
          rw [d1]
          push_cast
          omega
        · show ∀ pr ∈ (detect_pass_shot ep s).1.events,
            pr.2.kind = .pass ∨ pr.2.kind = .failed_pass ∨ pr.2.kind = .shot
          rw [d4]
          exact h3
        · show ∀ pr ∈ (detect_pass_shot ep s).1.trace
              ++ [((detect_pass_shot ep s).1.prev_pwb, ev)], pr.1 ≠ none
          intro pr hpr
          rcases List.mem_append.mp hpr with hl | hr
          · rw [d5] at hl
            exact h4 pr hl
          · rw [List.mem_singleton.mp hr, d2, hprev]
            exact Option.some_ne_none p
        · exact fun n h => detect_pass_shot_pwb ep s h5 n h
        · show ∀ n, (detect_pass_shot ep s).1.prev_pwb = some n → n < 22
          rw [d2]
          exact h6
        · intro pr hpr
          rw [show ({ (detect_pass_shot ep s).1 with
              current_frame := (detect_pass_shot ep s).1.current_frame + 1,
              trace := (detect_pass_shot ep s).1.trace
                ++ [((detect_pass_shot ep s).1.prev_pwb, ev)] } : RecState).events
              = (detect_pass_shot ep s).1.events from rfl, d4] at hpr
          exact h7 pr hpr
      · rw [inner_loop_store ep fuel s ev hlt hdet hk]
        push_neg at hk
        obtain ⟨e1, e2, e3, e4⟩ := detect_pass_shot_emit ep s ev hdet hk.1 hk.2
        have hfresh : ∀ pr ∈ (detect_pass_shot ep s).1.events, pr.1 ≠ ev.frame := by
          intro pr hpr
          rw [d4] at hpr
          have hb := hkey pr.1 (List.mem_map_of_mem Prod.fst hpr)
          rw [e1]
          omega
        have hins : dict_insert (detect_pass_shot ep s).1.events ev.frame ev
            = (detect_pass_shot ep s).1.events ++ [(ev.frame, ev)] :=
          dict_insert_not_mem _ _ _ hfresh
        refine ⟨?_, ?_, ?_, ?_, ?_, ?_, ?_⟩
        · show List.Chain' (fun a b => a < b)
            ((dict_insert (detect_pass_shot ep s).1.events ev.frame ev).map Prod.fst)
          rw [hins, List.map_append, d4]
          apply chain_lt_append _ _ h1
          intro k hk2
          have hb := hkey k hk2
          rw [e1]
          omega
        · show ∀ k ∈ (dict_insert (detect_pass_shot ep s).1.events ev.frame ev).map Prod.fst,
            k + 2 ≤ (((detect_pass_shot ep s).1.current_frame + 1 : ℕ) : ℤ)
          intro k hk2
          rw [hins, List.map_append, d4] at hk2
          rw [d1]
          rcases List.mem_append.mp hk2 with hl | hr
          · have hb := h2 k hl
            push_cast
            omega
          · simp only [List.map_cons, List.map_nil, List.mem_singleton] at hr
            subst hr
            rw [e1]
            push_cast
            omega
        · show ∀ pr ∈ dict_insert (detect_pass_shot ep s).1.events ev.frame ev,
            pr.2.kind = .pass ∨ pr.2.kind = .failed_pass ∨ pr.2.kind = .shot
          intro pr hpr
          rw [hins, d4] at hpr
          rcases List.mem_append.mp hpr with hl | hr
          · exact h3 pr hl
          · rw [List.mem_singleton.mp hr]
            cases hevk : ev.kind with
            | pass => exact Or.inl rfl
            | failed_pass => exact Or.inr (Or.inl rfl)
            | shot => exact Or.inr (Or.inr rfl)
            | tackle => exact absurd hevk hk.2
            | faraway => exact absurd hevk hk.1
        · show ∀ pr ∈ (detect_pass_shot ep s).1.trace
              ++ [((detect_pass_shot ep s).1.prev_pwb, ev)], pr.1 ≠ none
          intro pr hpr
          rcases List.mem_append.mp hpr with hl | hr
          · rw [d5] at hl
            exact h4 pr hl
          · rw [List.mem_singleton.mp hr, d2, hprev]
            exact Option.some_ne_none p
        · exact fun n h => detect_pass_shot_pwb ep s h5 n h
        · show ∀ n, (detect_pass_shot ep s).1.prev_pwb = some n → n < 22
          rw [d2]
          exact h6
        · intro pr hpr
          rw [show ({ (detect_pass_shot ep s).1 with
              current_frame := (detect_pass_shot ep s).1.current_frame + 1,
              trace := (detect_pass_shot ep s).1.trace
                ++ [((detect_pass_shot ep s).1.prev_pwb, ev)],
              events := dict_insert (detect_pass_shot ep s).1.events ev.frame ev }
              : RecState).events
              = dict_insert (detect_pass_shot ep s).1.events ev.frame ev from rfl,
            hins, d4] at hpr
          rcases List.mem_append.mp hpr with hl | hr
          · exact h7 pr hl
          · rw [List.mem_singleton.mp hr]
            constructor
            · intro hkp
              obtain ⟨n, hn, hne⟩ := e3 hkp
              show ev.target ≠ ev.player
              rw [hn, e2]
              exact hne
            · intro hkf h300
              have htarget := e4 hkf
              have hwit : ∃ t, t < 22 ∧ t ≠ p ∧ (p < 11 → t < 11) ∧ (11 ≤ p → 11 ≤ t) := by
                by_cases hp11 : p < 11
                · by_cases hp0 : p = 0
                  · exact ⟨1, by omega, by omega, fun _ => by omega, fun h => by omega⟩
                  · exact ⟨0, by omega, by omega, fun _ => by omega, fun h => by omega⟩
                · by_cases hp1 : p = 11
                  · exact ⟨12, by omega, by omega, fun h => by omega, fun _ => by omega⟩
                  · exact ⟨11, by omega, by omega, fun h => by omega, fun _ => by omega⟩
              obtain ⟨t, ht22, htp, hts1, hts2⟩ := hwit
              have hclose := allWithin300_spec ep h300 s.current_frame hlt t ht22
              have hspec := get_closest_teammate_spec ep s.current_frame
                (get_ball_coordinates ep s.current_frame) p t hp22 ht22 htp hts1 hts2 hclose
              show ev.target ≠ ev.player
              rw [htarget, e2, hprev]
              intro heq
              have hv := Option.some.inj heq
              rw [Option.getD_some] at hv
              exact hspec.1 hv

theorem inner_loop_stable (ep : Episode) (fuel : ℕ) (s : RecState)
    (h : ep.length ≤ s.current_frame) : inner_loop ep fuel s = s := by
  cases fuel with
  | zero => rw [inner_loop_zero]
  | succ f => rw [inner_loop_end ep f s (by omega)]

theorem main_loop_stable (ep : Episode) (fuel : ℕ) (s : RecState)
    (h : ep.length ≤ s.current_frame) : main_loop ep fuel s = s := by
  cases fuel with
  | zero => rw [main_loop_zero]
  | succ f => rw [main_loop_end ep f s (by omega)]

/-- The combined main-loop lemma: the run invariant is preserved, the cursor
stays below any bound containing the start cursor and the episode length,
and with sufficient fuel the cursor reaches the episode end. -/
theorem main_loop_run (ep : Episode) : ∀ (fuel : ℕ) (s : RecState) (L : ℕ),
    Inv ep s → s.current_frame ≤ L → ep.length ≤ L →
    Inv ep (main_loop ep fuel s)
    ∧ (main_loop ep fuel s).current_frame ≤ L
    ∧ (ep.length + 1 ≤ fuel + s.current_frame →
        ep.length ≤ (main_loop ep fuel s).current_frame)
  | 0, s, L, hinv, hsL, hlL => by
    rw [main_loop_zero]
    exact ⟨hinv, hsL, fun hf => by omega⟩
  | fuel + 1, s, L, hinv, hsL, hlL => by
    by_cases hlt : s.current_frame < ep.length
    · rw [main_loop_step ep fuel s hlt]
      obtain ⟨h1, h2, h3, h4, h5, h6, h7⟩ := hinv
      obtain ⟨f1, f2, f3, f4, f5, f6, f7⟩ := find_ball_faraway_spec ep s h5
      have hinv1 : Inv ep (find_ball_faraway ep s) := by
        refine Inv_fields ep s _ f1 f2 f3 f5 ?_ ⟨h1, h2, h3, h4, h5, h6, h7⟩
        intro n h
        rcases f6 n h with h22 | hold
        · exact h22
        · exact h6 n hold
      have hfbL : (find_ball_faraway ep s).current_frame ≤ L := f4 L hsL hlL
      rcases f7 with hend | ⟨q, hq, hq22, hqef, hqlt⟩
      · rw [inner_loop_stable ep ep.length _ hend, main_loop_stable ep fuel _ hend]
        exact ⟨hinv1, hfbL, fun _ => hend⟩
      · have hinv2 : Inv ep (inner_loop ep ep.length (find_ball_faraway ep s)) := by
          apply inner_loop_inv ep ep.length _ q hinv1 hq hq22
          · intro k hk
            rw [f1] at hk
            have hb := h2 k hk
            rw [hqef]
            simp only [Option.getD_some]
            have hc : (s.current_frame : ℤ)
                ≤ ((find_ball_faraway ep s).current_frame : ℤ) := by
              exact_mod_cast f3
            omega
          · rw [hqef]
            simp only [Option.getD_some]
            omega
        have hprog : (find_ball_faraway ep s).current_frame + 1 ≤
            (inner_loop ep ep.length (find_ball_faraway ep s)).current_frame :=
          inner_loop_progress ep ep.length _ hqlt (by omega)
        have hinL : (inner_loop ep ep.length (find_ball_faraway ep s)).current_frame ≤ L :=
          inner_loop_cf_le ep ep.length _ L hfbL hlL
        obtain ⟨r1, r2, r3⟩ := main_loop_run ep fuel _ L hinv2 hinL hlL
        refine ⟨r1, r2, fun hf => r3 ?_⟩
        have hmono := f3
        omega
    · rw [main_loop_end ep fuel s hlt]
      exact ⟨hinv, hsL, fun _ => by omega⟩

/-- The run invariant holds at the start of `find_events`. -/
theorem Inv_init (ep : Episode) : Inv ep { initState with events := [] } := by
  refine ⟨?_, ?_, ?_, ?_, ?_, ?_, ?_⟩ <;> simp [initState, Inv]

/-- Claim C3 (amended): unconditionally, `verify_failed_pass` yields
`tackle` exactly when the prior possessor's position at `event_frame` is
strictly within 1.5 m of the exit ball position, and otherwise a
`failed_pass` whose target is the player produced by the 300 m-sentinel
closest-teammate rule.  Whenever some same-side player other than the
possessor is strictly within 300 m of the exit position, that player is the
closest teammate of the prior possessor excluding the possessor itself;
without such a player the target can be the possessor (see the
counterexample). -/
theorem claim_C3_failed_pass_amended (ep : Episode) (s : RecState) (b : Pt) (p : ℕ)
    (hp : s.prev_pwb = some p) (hp22 : p < 22) :
    ((verify_failed_pass ep s b).kind = .tackle ↔
      distSq (get_player_coordinates ep p (s.event_frame.getD 0).toNat) b
        < MinFailedPassLength ^ 2)
    ∧ ((verify_failed_pass ep s b).kind ≠ .tackle →
        (verify_failed_pass ep s b).kind = .failed_pass
        ∧ (verify_failed_pass ep s b).player = some p
        ∧ (verify_failed_pass ep s b).target
            = some (get_closest_teammate ep s.current_frame b p))
    ∧ (∀ t, t < 22 → t ≠ p → (p < 11 → t < 11) → (11 ≤ p → 11 ≤ t) →
        distSq (get_player_coordinates ep t s.current_frame) b < 300 ^ 2 →
        get_closest_teammate ep s.current_frame b p ≠ p
        ∧ get_closest_teammate ep s.current_frame b p < 22
        ∧ (p < 11 → get_closest_teammate ep s.current_frame b p < 11)
        ∧ (11 ≤ p → 11 ≤ get_closest_teammate ep s.current_frame b p)
        ∧ (∀ q, q < 22 → q ≠ p → (p < 11 → q < 11) → (11 ≤ p → 11 ≤ q) →
            distSq (get_player_coordinates ep (get_closest_teammate ep s.current_frame b p)
                s.current_frame) b
              ≤ distSq (get_player_coordinates ep q s.current_frame) b)) := by
  refine ⟨?_, ?_, ?_⟩
  · simp only [verify_failed_pass, get_event, hp, Option.getD_some]
    split
    · rename_i hd
      exact ⟨fun _ => hd, fun _ => rfl⟩
    · rename_i hd
      exact ⟨fun hk => absurd hk (by simp), fun hdist => absurd hdist hd⟩
  · simp only [verify_failed_pass, get_event, hp, Option.getD_some]
    split
    · intro hne
      exact absurd rfl hne
    · exact fun _ => ⟨rfl, rfl, rfl⟩
  · intro t ht htp hts1 hts2 hclose
    exact get_closest_teammate_spec ep s.current_frame b p t hp22 ht htp hts1 hts2 hclose

/-- Witness for the amended C3 on `epW` in state `stC3` (prior possessor 5,
event frame 0, exit ball position `(0, 36)`). -/
theorem claim_C3_witness :
    ((verify_failed_pass epW stC3 (0, 36)).kind = .tackle ↔
      distSq (get_player_coordinates epW 5 (stC3.event_frame.getD 0).toNat) (0, 36)
        < MinFailedPassLength ^ 2)
    ∧ ((verify_failed_pass epW stC3 (0, 36)).kind ≠ .tackle →
        (verify_failed_pass epW stC3 (0, 36)).kind = .failed_pass
        ∧ (verify_failed_pass epW stC3 (0, 36)).player = some 5
        ∧ (verify_failed_pass epW stC3 (0, 36)).target
            = some (get_closest_teammate epW stC3.current_frame (0, 36) 5))
    ∧ (∀ t, t < 22 → t ≠ 5 → (5 < 11 → t < 11) → (11 ≤ 5 → 11 ≤ t) →
        distSq (get_player_coordinates epW t stC3.current_frame) (0, 36) < 300 ^ 2 →
        get_closest_teammate epW stC3.current_frame (0, 36) 5 ≠ 5
        ∧ get_closest_teammate epW stC3.current_frame (0, 36) 5 < 22
        ∧ (5 < 11 → get_closest_teammate epW stC3.current_frame (0, 36) 5 < 11)
        ∧ (11 ≤ 5 → 11 ≤ get_closest_teammate epW stC3.current_frame (0, 36) 5)
        ∧ (∀ q, q < 22 → q ≠ 5 → (5 < 11 → q < 11) → (11 ≤ 5 → 11 ≤ q) →
            distSq (get_player_coordinates epW (get_closest_teammate epW stC3.current_frame
                (0, 36) 5) stC3.current_frame) (0, 36)
              ≤ distSq (get_player_coordinates epW q stC3.current_frame) (0, 36))) :=
  claim_C3_failed_pass_amended epW stC3 (0, 36) 5 rfl (by decide)

/-- Counterexample to claim C3 as stated: on `epC8`, with prior possessor 5
and exit ball position `(0, 36)`, the travelled distance is 36 m ≥ 1.5 m,
yet the produced `failed_pass` names the prior possessor *itself* as target
(every other teammate is ≥ 300 m away, so the 300 m sentinel of
`get_closest_teammate` is the slice minimum) — the target is not "the
closest teammate of the prior possessor (excluding the possessor itself)". -/
theorem claim_C3_counterexample :
    verify_failed_pass epC8 stC3 (0, 36) =
      { frame := 0, kind := .failed_pass, player := some 5, target := some 5 }
    ∧ stC3.prev_pwb = some 5 := by
  constructor
  · with_unfolding_all rfl
  · rfl

/-- Counterexample to claim C8 as stated: the full run of `find_events` on
the admissible episode `epC8` stores a `failed_pass` whose `target` equals
its `player` (both are player 5). -/
theorem claim_C8_counterexample :
    find_events epC8 =
      [((0 : ℤ), { frame := 0, kind := .failed_pass, player := some 5, target := some 5 })] := by
  with_unfolding_all rfl


/-- Claim C4: the event map returned by `find_events` never contains a
`tackle` or `faraway` entry: every stored event kind is one of `pass`,
`failed_pass`, `shot`. -/
theorem claim_C4_event_kinds (ep : Episode) (pr : ℤ × Event) (h : pr ∈ find_events ep) :
    pr.2.kind = .pass ∨ pr.2.kind = .failed_pass ∨ pr.2.kind = .shot := by
  have hrun := main_loop_run ep (ep.length + 1) { initState with events := [] } ep.length
    (Inv_init ep) (Nat.zero_le _) (le_refl _)
  exact hrun.1.2.2.1 pr h

/-- Witness for C4 on `epW`, whose event map holds one `failed_pass`. -/
theorem claim_C4_witness :
    ((0 : ℤ), evW).2.kind = .pass
    ∨ ((0 : ℤ), evW).2.kind = .failed_pass
    ∨ ((0 : ℤ), evW).2.kind = .shot := by
  apply claim_C4_event_kinds epW
  rw [show find_events epW = [((0 : ℤ), evW)] from by with_unfolding_all rfl]
  exact List.mem_singleton.mpr rfl

/-- Claim C5: the frame-number keys of the event map, read in insertion
(discovery) order, are pairwise distinct and numerically non-decreasing
(indeed strictly increasing). -/
theorem claim_C5_key_monotone (ep : Episode) :
    List.Pairwise (fun a b => a ≠ b) ((find_events ep).map Prod.fst)
    ∧ List.Chain' (fun a b => a ≤ b) ((find_events ep).map Prod.fst) := by
  have hrun := main_loop_run ep (ep.length + 1) { initState with events := [] } ep.length
    (Inv_init ep) (Nat.zero_le _) (le_refl _)
  have hchain : List.Chain' (fun a b => a < b) ((find_events ep).map Prod.fst) := hrun.1.1
  constructor
  · have hpw := List.chain'_iff_pairwise.mp hchain
    exact hpw.imp fun hab => ne_of_lt hab
  · exact hchain.imp fun _ _ hab => le_of_lt hab

/-- Claim C8 (amended): every `pass` entry's target differs from its player
unconditionally; a `failed_pass` target differs from its player provided
every player of every frame is strictly within 300 m of that frame's ball
position (the sentinel bound of `get_closest_teammate`, demanded here only
when the entry is a `failed_pass`); without that proviso the `failed_pass`
half fails (see the counterexample). -/
theorem claim_C8_target_amended (ep : Episode) (pr : ℤ × Event) (h : pr ∈ find_events ep)
    (hk : pr.2.kind = .pass ∨ pr.2.kind = .failed_pass)
    (h300 : pr.2.kind = .failed_pass → allWithin300 ep = true) :
    pr.2.target ≠ pr.2.player := by
  have hrun := main_loop_run ep (ep.length + 1) { initState with events := [] } ep.length
    (Inv_init ep) (Nat.zero_le _) (le_refl _)
  have h7 := hrun.1.2.2.2.2.2.2 pr h
  rcases hk with hkp | hkf
  · exact h7.1 hkp
  · exact h7.2 hkf (h300 hkf)

/-- Witness for the amended C8 on `epW` (players within 300 m everywhere):
the stored `failed_pass` has target 0 and player 5. -/
theorem claim_C8_witness :
    ((0 : ℤ), evW).2.target ≠ ((0 : ℤ), evW).2.player := by
  apply claim_C8_target_amended epW ((0 : ℤ), evW)
  · rw [show find_events epW = [((0 : ℤ), evW)] from by with_unfolding_all rfl]
    exact List.mem_singleton.mpr rfl
  · exact Or.inr rfl
  · intro _
    with_unfolding_all rfl

/-- Claim C9: every event handed back to the main loop of `find_events`
(transient `faraway` and `tackle` ones included, as recorded by the ghost
trace) is emitted while `prev_pwb` is set, so each emission has an acting
player. -/
theorem claim_C9_acting_player (ep : Episode) (pr : Option ℕ × Event)
    (h : pr ∈ (find_events_run ep initState).1.trace) : pr.1 ≠ none := by
  have hrun := main_loop_run ep (ep.length + 1) { initState with events := [] } ep.length
    (Inv_init ep) (Nat.zero_le _) (le_refl _)
  exact hrun.1.2.2.2.1 pr h

/-- Witness for C9 on `epW`: its single emission carries `prev_pwb = some 5`. -/
theorem claim_C9_witness :
    ((some 5 : Option ℕ), evW).1 ≠ none := by
  apply claim_C9_acting_player epW
  rw [show (find_events_run epW initState).1.trace = [((some 5 : Option ℕ), evW)]
    from by with_unfolding_all rfl]
  exact List.mem_singleton.mpr rfl

/-- Claim C10: after one `find_events` call on a recognizer instance the
cursor equals the episode length and is never reset, so every further
`find_events` call on the same instance clears `events` and immediately
falls out of the loop, returning the empty map. -/
theorem claim_C10_second_run_empty (ep : Episode) :
    (find_events_run ep (find_events_run ep initState).1).2 = []
    ∧ (find_events_run ep initState).1.current_frame = ep.length := by
  have hrun := main_loop_run ep (ep.length + 1) { initState with events := [] } ep.length
    (Inv_init ep) (Nat.zero_le _) (le_refl _)
  have hle : (main_loop ep (ep.length + 1) { initState with events := [] }).current_frame
      ≤ ep.length := hrun.2.1
  have hge : ep.length ≤ (main_loop ep (ep.length + 1)
      { initState with events := [] }).current_frame := hrun.2.2 (Nat.le_add_right _ _)
  have hcf : (find_events_run ep initState).1.current_frame = ep.length :=
    le_antisymm hle hge
  refine ⟨?_, hcf⟩
  show (main_loop ep (ep.length + 1)
      { (find_events_run ep initState).1 with events := [] }).events = []
  rw [main_loop_stable ep (ep.length + 1)
      { (find_events_run ep initState).1 with events := [] }
      (show ep.length
          ≤ ({ (find_events_run ep initState).1 with events := [] } : RecState).current_frame
        from le_of_eq hcf.symm)]

end SoccerER
